import Mathlib

/-!
Verification of the `mockers_derive` code generator
(`src/mockers_derive/src/codegen.rs`) against its natural-language
specification.

The development shallowly embeds the generator: the `syn` 0.11 AST subset the
generator consumes is modelled by the mutual inductive family below, and each
generator function (`replace_self`, `qualify_self`, `set_self`,
`generate_stub_code`, `generate_impl_method`, `generate_trait_methods`,
`generate_mock_struct`, `generate_mock_impl`, `generate_mock_for_traits`,
`generate_extern_mock`, `generate_mock`) is translated to a Lean function of
the same name.  Emitted Rust token streams are modelled structurally: a
generated item is a `GenItem` value recording exactly the fields the
templates interpolate (identifiers, numeric mock type ids, method names,
argument lists, types), rather than raw text.  The process-wide mutable
state (`NEXT_MOCK_TYPE_ID`, `KNOWN_TRAITS`) is passed explicitly through
`GenState`.  The run-time behaviour of the emitted registration code
(`EXTERN_MOCKS` thread-local table) is modelled by executable functions over
an association list.
-/

namespace Mockers

/-- syn `Mutability`. -/
inductive Mutability where
  | mutable
  | immutable
deriving DecidableEq

/-- syn `Unsafety` (`Normal` vs `Unsafe`); the second constructor stands for
a declaration carrying the unsafety keyword. -/
inductive Safety where
  | normal
  | declared
deriving DecidableEq

/- The `syn` 0.11 type-expression family used by the generator.  `Ty::Array`
carries its length expression opaquely as a string (the generator only clones
it); `Ty::TraitObject` and `Ty::ImplTrait` carry their bound lists opaquely
(the generator only clones them); `Ty::Mac` carries the macro invocation
opaquely. -/
mutual

inductive Ty where
  | slice (t : Ty)
  | array (t : Ty) (lenExpr : String)
  | ptr (m : Mutability) (t : Ty)
  | rptr (lifetime : Option String) (m : Mutability) (t : Ty)
  | bareFn (safety : Safety) (abi : Option String) (lifetimes : List String)
      (inputs : List BareFnArg) (output : FunctionRetTy) (variadic : Bool)
  | never
  | tup (ts : List Ty)
  | path (q : Option TQSelf) (p : SynPath)
  | traitObject (bounds : String)
  | implTrait (bounds : String)
  | paren (t : Ty)
  | infer
  | mac (invocation : String)

inductive TQSelf where
  | mk (ty : Ty) (position : Nat)

inductive SynPath where
  | mk (global : Bool) (segments : List PathSegment)

inductive PathSegment where
  | mk (ident : String) (parameters : PathParameters)

inductive PathParameters where
  | angleBracketed (lifetimes : List String) (types : List Ty)
      (bindings : List TypeBinding)
  | parenthesized (inputs : List Ty) (output : Option Ty)

inductive TypeBinding where
  | mk (ident : String) (ty : Ty)

inductive BareFnArg where
  | mk (name : Option String) (ty : Ty)

inductive FunctionRetTy where
  | default
  | ty (t : Ty)

end

/-- Projection: a path's `global` flag. -/
def SynPath.globalFlag : SynPath → Bool
  | SynPath.mk g _ => g

/-- Projection: a path's segment list. -/
def SynPath.segs : SynPath → List PathSegment
  | SynPath.mk _ s => s

/-- Projection: a segment's identifier. -/
def PathSegment.segIdent : PathSegment → String
  | PathSegment.mk i _ => i

/-- syn `PathParameters::none()`: empty angle-bracketed data. -/
def PathParameters.noneParams : PathParameters :=
  PathParameters.angleBracketed [] [] []

/-- A parameterless path segment (`PathSegment::from(ident)`). -/
def mkSeg (ident : String) : PathSegment :=
  PathSegment.mk ident PathParameters.noneParams

/- Structural (boolean) equality for the type family.  The source compares
paths via `HashMap` keys and via `format!("{:?}", path)` strings; both
coincide with structural equality of the parsed AST, which is what we
implement. -/
mutual

def tyBEq : Ty → Ty → Bool
  | Ty.slice a, Ty.slice b => tyBEq a b
  | Ty.array a n, Ty.array b m => tyBEq a b && n == m
  | Ty.ptr ma a, Ty.ptr mb b => ma == mb && tyBEq a b
  | Ty.rptr la ma a, Ty.rptr lb mb b => la == lb && ma == mb && tyBEq a b
  | Ty.bareFn sa aa la ia oa va, Ty.bareFn sb ab lb ib ob vb =>
      sa == sb && aa == ab && la == lb && bareFnArgsBEq ia ib
        && retTyBEq oa ob && va == vb
  | Ty.never, Ty.never => true
  | Ty.tup as_, Ty.tup bs => tyListBEq as_ bs
  | Ty.path qa pa, Ty.path qb pb => qselfOptBEq qa qb && synPathBEq pa pb
  | Ty.traitObject a, Ty.traitObject b => a == b
  | Ty.implTrait a, Ty.implTrait b => a == b
  | Ty.paren a, Ty.paren b => tyBEq a b
  | Ty.infer, Ty.infer => true
  | Ty.mac a, Ty.mac b => a == b
  | _, _ => false
termination_by structural a _ => a

def tyListBEq : List Ty → List Ty → Bool
  | [], [] => true
  | a :: as_, b :: bs => tyBEq a b && tyListBEq as_ bs
  | _, _ => false
termination_by structural a _ => a

def qselfOptBEq : Option TQSelf → Option TQSelf → Bool
  | none, none => true
  | some (TQSelf.mk ta pa), some (TQSelf.mk tb pb) => tyBEq ta tb && pa == pb
  | _, _ => false
termination_by structural a _ => a

def synPathBEq : SynPath → SynPath → Bool
  | SynPath.mk ga sa, SynPath.mk gb sb => ga == gb && segListBEq sa sb
termination_by structural a _ => a

def segListBEq : List PathSegment → List PathSegment → Bool
  | [], [] => true
  | a :: as_, b :: bs => segBEq a b && segListBEq as_ bs
  | _, _ => false
termination_by structural a _ => a

def segBEq : PathSegment → PathSegment → Bool
  | PathSegment.mk ia pa, PathSegment.mk ib pb => ia == ib && paramsBEq pa pb
termination_by structural a _ => a

def paramsBEq : PathParameters → PathParameters → Bool
  | PathParameters.angleBracketed la ta ba, PathParameters.angleBracketed lb tb bb =>
      la == lb && tyListBEq ta tb && bindingsBEq ba bb
  | PathParameters.parenthesized ia oa, PathParameters.parenthesized ib ob =>
      tyListBEq ia ib && tyOptBEq oa ob
  | _, _ => false
termination_by structural a _ => a

def bindingsBEq : List TypeBinding → List TypeBinding → Bool
  | [], [] => true
  | TypeBinding.mk ia ta :: as_, TypeBinding.mk ib tb :: bs =>
      ia == ib && tyBEq ta tb && bindingsBEq as_ bs
  | _, _ => false
termination_by structural a _ => a

def tyOptBEq : Option Ty → Option Ty → Bool
  | none, none => true
  | some a, some b => tyBEq a b
  | _, _ => false
termination_by structural a _ => a

def bareFnArgsBEq : List BareFnArg → List BareFnArg → Bool
  | [], [] => true
  | BareFnArg.mk na ta :: as_, BareFnArg.mk nb tb :: bs =>
      na == nb && tyBEq ta tb && bareFnArgsBEq as_ bs
  | _, _ => false
termination_by structural a _ => a

def retTyBEq : FunctionRetTy → FunctionRetTy → Bool
  | FunctionRetTy.default, FunctionRetTy.default => true
  | FunctionRetTy.ty a, FunctionRetTy.ty b => tyBEq a b
  | _, _ => false
termination_by structural a _ => a

end

/- ------------------------------------------------------------------ -/
/- The Type Rewriter: `replace_self` and its two specializations.      -/
/- ------------------------------------------------------------------ -/

/- `fn replace_self<Func>(ty: &Ty, func: Func) -> Ty` walks a type
expression; a path whose qself is absent and whose first segment is named
`Self` is handed to `func` (with the remaining segments); all other
constructs are rebuilt with processed children exactly as in the source's
`process_ty` / `process_path` / `process_bare_fn_arg` /
`process_function_ret_ty`. -/
mutual

def process_ty (f : PathSegment → List PathSegment → Ty) : Ty → Ty
  | Ty.slice t => Ty.slice (process_ty f t)
  | Ty.array t n => Ty.array (process_ty f t) n
  | Ty.ptr m t => Ty.ptr m (process_ty f t)
  | Ty.rptr lt m t => Ty.rptr lt m (process_ty f t)
  | Ty.bareFn s abi lts inputs output variadic =>
      Ty.bareFn s abi lts (process_bare_fn_args f inputs)
        (process_function_ret_ty f output) variadic
  | Ty.never => Ty.never
  | Ty.tup ts => Ty.tup (process_ty_list f ts)
  | Ty.path q p =>
      match q, p with
      | none, SynPath.mk g (s :: rest) =>
          if s.segIdent = "Self" then f s rest
          else Ty.path none (process_path f (SynPath.mk g (s :: rest)))
      | q, p => Ty.path q (process_path f p)
  | Ty.traitObject b => Ty.traitObject b
  | Ty.implTrait b => Ty.implTrait b
  | Ty.paren t => Ty.paren (process_ty f t)
  | Ty.infer => Ty.infer
  | Ty.mac m => Ty.mac m

def process_ty_list (f : PathSegment → List PathSegment → Ty) : List Ty → List Ty
  | [] => []
  | t :: ts => process_ty f t :: process_ty_list f ts

def process_bare_fn_args (f : PathSegment → List PathSegment → Ty) :
    List BareFnArg → List BareFnArg
  | [] => []
  | BareFnArg.mk n t :: rest =>
      BareFnArg.mk n (process_ty f t) :: process_bare_fn_args f rest

def process_function_ret_ty (f : PathSegment → List PathSegment → Ty) :
    FunctionRetTy → FunctionRetTy
  | FunctionRetTy.default => FunctionRetTy.default
  | FunctionRetTy.ty t => FunctionRetTy.ty (process_ty f t)

def process_path (f : PathSegment → List PathSegment → Ty) : SynPath → SynPath
  | SynPath.mk g segs => SynPath.mk g (process_segs f segs)

def process_segs (f : PathSegment → List PathSegment → Ty) :
    List PathSegment → List PathSegment
  | [] => []
  | PathSegment.mk i params :: rest =>
      PathSegment.mk i (process_params f params) :: process_segs f rest

def process_params (f : PathSegment → List PathSegment → Ty) :
    PathParameters → PathParameters
  | PathParameters.angleBracketed lts tys bs =>
      PathParameters.angleBracketed lts (process_ty_list f tys)
        (process_bindings f bs)
  | PathParameters.parenthesized ins outp =>
      PathParameters.parenthesized (process_ty_list f ins) (process_opt_ty f outp)

def process_bindings (f : PathSegment → List PathSegment → Ty) :
    List TypeBinding → List TypeBinding
  | [] => []
  | TypeBinding.mk i t :: rest =>
      TypeBinding.mk i (process_ty f t) :: process_bindings f rest

def process_opt_ty (f : PathSegment → List PathSegment → Ty) :
    Option Ty → Option Ty
  | none => none
  | some t => some (process_ty f t)

end

/-- `fn replace_self<Func>(ty, func)`: entry point of the traversal. -/
def replace_self (ty : Ty) (f : PathSegment → List PathSegment → Ty) : Ty :=
  process_ty f ty

/-- The rewrite callback of `qualify_self`: `Self::Rest` becomes the
qualified path whose qself is `Self` positioned after the trait path,
with the trait path's segments followed by `Rest`. -/
def qualifySelfFunc (traitPath : SynPath) (selfSeg : PathSegment)
    (rest : List PathSegment) : Ty :=
  let selfTy := Ty.path none (SynPath.mk false [selfSeg])
  let newQSelf := TQSelf.mk selfTy traitPath.segs.length
  Ty.path (some newQSelf) (SynPath.mk false (traitPath.segs ++ rest))

/-- `fn qualify_self(ty: &Ty, trait_path: &Path) -> Ty`. -/
def qualify_self (ty : Ty) (traitPath : SynPath) : Ty :=
  replace_self ty (qualifySelfFunc traitPath)

/-- The rewrite callback of `set_self`: `Self::Rest` becomes
`mock_struct_path::Rest` (the self segment is dropped). -/
def setSelfFunc (mockStructPath : SynPath) (_selfSeg : PathSegment)
    (rest : List PathSegment) : Ty :=
  Ty.path none (SynPath.mk false (mockStructPath.segs ++ rest))

/-- `fn set_self(ty: &Ty, mock_struct_path: &Path) -> Ty`. -/
def set_self (ty : Ty) (mockStructPath : SynPath) : Ty :=
  replace_self ty (setSelfFunc mockStructPath)

/- ------------------------------------------------------------------ -/
/- Spec-side traversal for claim C6.                                   -/
/- ------------------------------------------------------------------ -/

/- Modelled from the claim's words, independently of the source: a traversal
that "recurses through slices, arrays, raw and borrowed references,
function-pointer types, tuples, and path type arguments", rewrites "each
path whose head segment is an unqualified Self" via the given callback, and
leaves "all other constructs unchanged".  `recurseParen` extends the
enumerated recursion list with parenthesized type expressions; the claim as
stated corresponds to `recurseParen = false`. -/
mutual

def claimWalkTy (recurseParen : Bool)
    (f : PathSegment → List PathSegment → Ty) : Ty → Ty
  | Ty.slice t => Ty.slice (claimWalkTy recurseParen f t)
  | Ty.array t n => Ty.array (claimWalkTy recurseParen f t) n
  | Ty.ptr m t => Ty.ptr m (claimWalkTy recurseParen f t)
  | Ty.rptr lt m t => Ty.rptr lt m (claimWalkTy recurseParen f t)
  | Ty.bareFn s abi lts inputs output variadic =>
      Ty.bareFn s abi lts (claimWalkBareFnArgs recurseParen f inputs)
        (claimWalkRetTy recurseParen f output) variadic
  | Ty.tup ts => Ty.tup (claimWalkTyList recurseParen f ts)
  | Ty.path none (SynPath.mk g (s :: rest)) =>
      if s.segIdent = "Self" then f s rest
      else Ty.path none (claimWalkPath recurseParen f (SynPath.mk g (s :: rest)))
  | Ty.path q p => Ty.path q (claimWalkPath recurseParen f p)
  | Ty.paren t =>
      if recurseParen then Ty.paren (claimWalkTy recurseParen f t)
      else Ty.paren t
  | t => t

def claimWalkTyList (recurseParen : Bool)
    (f : PathSegment → List PathSegment → Ty) : List Ty → List Ty
  | [] => []
  | t :: ts =>
      claimWalkTy recurseParen f t :: claimWalkTyList recurseParen f ts

def claimWalkBareFnArgs (recurseParen : Bool)
    (f : PathSegment → List PathSegment → Ty) : List BareFnArg → List BareFnArg
  | [] => []
  | BareFnArg.mk n t :: rest =>
      BareFnArg.mk n (claimWalkTy recurseParen f t)
        :: claimWalkBareFnArgs recurseParen f rest

def claimWalkRetTy (recurseParen : Bool)
    (f : PathSegment → List PathSegment → Ty) : FunctionRetTy → FunctionRetTy
  | FunctionRetTy.default => FunctionRetTy.default
  | FunctionRetTy.ty t => FunctionRetTy.ty (claimWalkTy recurseParen f t)

def claimWalkPath (recurseParen : Bool)
    (f : PathSegment → List PathSegment → Ty) : SynPath → SynPath
  | SynPath.mk g segs => SynPath.mk g (claimWalkSegs recurseParen f segs)

def claimWalkSegs (recurseParen : Bool)
    (f : PathSegment → List PathSegment → Ty) :
    List PathSegment → List PathSegment
  | [] => []
  | PathSegment.mk i params :: rest =>
      PathSegment.mk i (claimWalkParams recurseParen f params)
        :: claimWalkSegs recurseParen f rest

def claimWalkParams (recurseParen : Bool)
    (f : PathSegment → List PathSegment → Ty) :
    PathParameters → PathParameters
  | PathParameters.angleBracketed lts tys bs =>
      PathParameters.angleBracketed lts (claimWalkTyList recurseParen f tys)
        (claimWalkBindings recurseParen f bs)
  | PathParameters.parenthesized ins outp =>
      PathParameters.parenthesized (claimWalkTyList recurseParen f ins)
        (claimWalkOptTy recurseParen f outp)

def claimWalkBindings (recurseParen : Bool)
    (f : PathSegment → List PathSegment → Ty) :
    List TypeBinding → List TypeBinding
  | [] => []
  | TypeBinding.mk i t :: rest =>
      TypeBinding.mk i (claimWalkTy recurseParen f t)
        :: claimWalkBindings recurseParen f rest

def claimWalkOptTy (recurseParen : Bool)
    (f : PathSegment → List PathSegment → Ty) : Option Ty → Option Ty
  | none => none
  | some t => some (claimWalkTy recurseParen f t)

end

/-- The claim-C6 rewriting exactly as stated (no recursion through
parenthesized types, which the claim does not list). -/
def qualifySelfClaim (ty : Ty) (traitPath : SynPath) : Ty :=
  claimWalkTy false (qualifySelfFunc traitPath) ty

/-- The amended claim-C6 rewriting: the recursion list extended with
parenthesized type expressions. -/
def qualifySelfClaimAmended (ty : Ty) (traitPath : SynPath) : Ty :=
  claimWalkTy true (qualifySelfFunc traitPath) ty

/- ------------------------------------------------------------------ -/
/- Items, methods, bounds: the rest of the consumed AST.               -/
/- ------------------------------------------------------------------ -/

/-- syn `TraitBoundModifier` (`None` vs `Maybe`, i.e. a leading question
mark on the bound). -/
inductive TraitBoundModifier where
  | noModifier
  | maybe
deriving DecidableEq

/-- syn `PolyTraitRef`: optional `for<'a ...>` lifetimes and the trait
path. -/
structure PolyTraitRef where
  bound_lifetimes : List String
  trait_ref : SynPath

/-- syn `TyParamBound`. -/
inductive TyParamBound where
  | traitBound (p : PolyTraitRef) (m : TraitBoundModifier)
  | region (lifetime : String)

/-- syn `TyParam` (the `attrs` and `default` fields, always empty / `None`
in this code base, are omitted). -/
structure TyParam where
  ident : String
  bounds : List TyParamBound

/-- syn `Generics` (`where_clause.predicates` carried opaquely: the source
only tests its emptiness). -/
structure Generics where
  lifetimes : List String
  ty_params : List TyParam
  where_predicates : List String

/-- `Generics::default()`. -/
def Generics.empty : Generics := ⟨[], [], []⟩

/-- syn `BindingMode` of a binding pattern. -/
inductive BindingMode where
  | byRef (m : Mutability)
  | byValue (m : Mutability)
deriving DecidableEq

/-- syn `Pat`, reduced to the constructors the generator distinguishes:
`Pat::Ident` and everything else (carried opaquely). -/
inductive Pat where
  | identPat (bm : BindingMode) (name : String) (sub : Option String)
  | wild
  | otherPat (description : String)

/-- syn `FnArg`. -/
inductive FnArg where
  | selfRef (lifetime : Option String) (m : Mutability)
  | selfValue (m : Mutability)
  | captured (p : Pat) (ty : Ty)
  | ignored (ty : Ty)

/-- syn `FnDecl`. -/
structure FnDecl where
  inputs : List FnArg
  output : FunctionRetTy
  variadic : Bool

/-- syn `MethodSig`. -/
structure MethodSig where
  safety : Safety
  constness : Bool
  abi : Option String
  decl : FnDecl
  generics : Generics

/-- syn `TraitItemKind`; constants and macros are carried opaquely (the
source rejects them without looking inside). -/
inductive TraitItemKind where
  | method (sig : MethodSig) (hasBody : Bool)
  | typeItem (bounds : List TyParamBound) (dflt : Option Ty)
  | constItem (description : String)
  | macItem (description : String)

/-- syn `TraitItem`. -/
structure TraitItem where
  ident : String
  node : TraitItemKind

/-- syn `ForeignItemKind`. -/
inductive ForeignItemKind where
  | fn (decl : FnDecl) (generics : Generics)
  | staticItem (description : String)

/-- syn `ForeignItem`. -/
structure ForeignItem where
  ident : String
  node : ForeignItemKind

/-- syn `ItemKind`, reduced to the constructors the generator
distinguishes. -/
inductive ItemKind where
  | traitItem (safety : Safety) (generics : Generics)
      (bounds : List TyParamBound) (items : List TraitItem)
  | foreignMod (items : List ForeignItem)
  | otherItem (description : String)

/-- syn `Item`. -/
structure Item where
  ident : String
  node : ItemKind

/-- `struct TraitDesc { mod_path: Path, trait_item: Item }`. -/
structure TraitDesc where
  mod_path : SynPath
  trait_item : Item

/-- `MockAttrOptions`: the recognized `#[mocked(...)]` options.  `refs` is
the partial-to-full path map, modelled as an association list. -/
structure MockAttrOptions where
  mock_name : Option String
  refs : List (SynPath × SynPath)
  module_path : Option SynPath

/-- The process-wide mutable state of the generator: the `KNOWN_TRAITS`
registry (a `HashMap<Path, Item>`, modelled as an association list) and the
`NEXT_MOCK_TYPE_ID` counter. -/
structure GenState where
  knownTraits : List (SynPath × Item)
  nextMockTypeId : Nat

/-- `HashMap::get` on the `KNOWN_TRAITS` registry. -/
def lookupPath (m : List (SynPath × Item)) (k : SynPath) : Option Item :=
  match m with
  | [] => none
  | (k', v) :: rest => if synPathBEq k' k then some v else lookupPath rest k

/-- `HashMap::insert` on the `KNOWN_TRAITS` registry (overwrites). -/
def insertPath (m : List (SynPath × Item)) (k : SynPath) (v : Item) :
    List (SynPath × Item) :=
  match m with
  | [] => [(k, v)]
  | (k', v') :: rest =>
      if synPathBEq k' k then (k, v) :: rest else (k', v') :: insertPath rest k v

/-- Lookup in the `refs` option map (`opts.refs.get(path)`). -/
def lookupRef (m : List (SynPath × SynPath)) (k : SynPath) : Option SynPath :=
  match m with
  | [] => none
  | (k', v) :: rest => if synPathBEq k' k then some v else lookupRef rest k

/-- The `::std::fmt::Debug` bound: built globally in
`generate_mock_for_traits` and parsed from `"::std::fmt::Debug"` in
`generate_impl_method`; both denote this value. -/
def debugBound : TyParamBound :=
  TyParamBound.traitBound
    ⟨[], SynPath.mk true [mkSeg "std", mkSeg "fmt", mkSeg "Debug"]⟩
    TraitBoundModifier.noModifier

/- ------------------------------------------------------------------ -/
/- Structural model of the emitted items.                               -/
/- ------------------------------------------------------------------ -/

/-- The `get_info_expr` interpolated into a stub body: either
`(self.mock_id, &self.scenario)` for instance methods, or the
`EXTERN_MOCKS` thread-local lookup keyed by the given mock type id for
static/extern functions. -/
inductive GetInfoExpr where
  | selfInfo
  | externLookup (mockTypeId : Nat)
deriving DecidableEq

/-- The forwarding ("stub") method emitted by `generate_stub_code`: the
method signature plus every value interpolated into the fixed body
template (the `MethodData` literal, the `verifyN` entry-point name, the
positional argument expressions). -/
structure StubMethod where
  declaredUnsafe : Bool
  name : String
  generics : Generics
  params : List FnArg
  returnType : Ty
  getInfo : GetInfoExpr
  mockTypeId : Nat
  methodName : String
  verifyFn : String
  argValues : List String

/-- One generic parameter of an expectation-builder method: a fresh
lifetime, one of the method's own type parameters (with `Debug`
appended), or a matcher type parameter `ArgiMatch: MatchArg<T> + 'static`. -/
inductive GenericParam where
  | lifetimeParam (name : String)
  | tyParam (p : TyParam)
  | matcher (ident : String) (argTy : Ty)

/-- One argument of the `CallMatchN::new(...)` call in a builder body. -/
inductive CallArg where
  | selfMockId
  | typeId (n : Nat)
  | nameLit (s : String)
  | boxed (ident : String)
deriving DecidableEq

/-- The expectation-builder method emitted by `generate_impl_method`:
`pub fn <name>_call<generics>(&self, inputs) -> CallMatchN<...> {
CallMatchN::new(new_args) }`. -/
structure BuilderMethod where
  name : String
  genericParams : List GenericParam
  inputs : List (String × String)
  output : String × List Ty
  newArgs : List CallArg

/-- The field types of a generated mock struct. -/
inductive FieldTy where
  | scenarioRc
  | usizeTy
  | phantomTuple (params : List String)
deriving DecidableEq

/-- A generated mock struct: name, generic parameters (one per associated
type, unbounded on the struct itself), and its fields. -/
structure MockStruct where
  name : String
  params : List String
  fields : List (String × FieldTy)

/-- The custom initialization code interpolated into a generated
`Mock::new`: nothing, the static-mock registration loop over a list of
mock type ids, or the extern-mock single-id registration. -/
inductive InitCode where
  | empty
  | registerStatics (ids : List Nat) (staticMockName : String)
  | registerExternBlock (id : Nat) (mockClassName : String)
deriving DecidableEq

/-- A generated `impl ::mockers::Mock for ...` block
(`generate_mock_impl`, and the inline impl of `generate_extern_mock`). -/
structure MockImpl where
  name : String
  assocTypes : List String
  mockedClassName : String
  init : InitCode

/-- One generated top-level item, as `generate_mock_for_traits` /
`generate_extern_mock` push them. -/
inductive GenItem where
  | structItem (s : MockStruct)
  | implBlock (generics : List TyParam) (structName : String)
      (methods : List BuilderMethod)
  | traitImplBlock (generics : List TyParam) (traitPath : SynPath)
      (structName : String) (typeItems : List (String × String))
      (methods : List StubMethod) (staticMethods : List StubMethod)
  | mockImplBlock (m : MockImpl)
  | debugImplBlock (structName : String)
  | mockedImplBlock (traitPath : SynPath) (mockName : String)
      (assocTypes : List String)
  | externStruct (name : String)
  | externMockImplBlock (m : MockImpl)
  | dropImplBlock (name : String) (removedId : Nat)
  | stubFn (s : StubMethod)

/- ------------------------------------------------------------------ -/
/- Method codegen.                                                     -/
/- ------------------------------------------------------------------ -/

/-- The name captured by an argument that is a plain bound identifier
(`FnArg::Captured(Pat::Ident(_, ident, _), _)`). -/
def capturedIdentOf : FnArg → Option String
  | FnArg.captured (Pat.identPat _ ident _) _ => some ident
  | _ => none

/-- The rebinding `generate_stub_code` applies to each argument: the same
name and type, bound mutable by value.  The identity fallback models the
source's `panic!("argument pattern")`, unreachable after the length
guard. -/
def stubRebindArg : FnArg → FnArg
  | FnArg.captured (Pat.identPat _ ident _) ty =>
      FnArg.captured
        (Pat.identPat (BindingMode.byValue Mutability.mutable) ident none) ty
  | other => other

/-- `fn generate_stub_code(...)`: the forwarding method.  The source
collects the names of `FnArg::Captured(Pat::Ident ..)` arguments, fails
when any argument has another shape, names the engine entry point
`verify{N}`, and rebinds every parameter mutable by value.  The `other`
fallback in `impl_args` models the source's `panic!("argument pattern")`,
which is unreachable once the length guard has passed. -/
def generate_stub_code (mockTypeId : Nat) (methodIdent : String)
    (generics : Generics) (selfArg : Option FnArg) (getInfo : GetInfoExpr)
    (args : List FnArg) (returnType : Ty) (declaredUnsafe : Bool) :
    Except String StubMethod :=
  let argValues : List String := args.filterMap capturedIdentOf
  if argValues.length < args.length then Except.error "" else
  let verifyFn := "verify" ++ Nat.repr args.length
  let implArgs : List FnArg := args.map stubRebindArg
  let implArgs : List FnArg :=
    match selfArg with
    | some arg => arg :: implArgs
    | none => implArgs
  Except.ok
    { declaredUnsafe := declaredUnsafe
      name := methodIdent
      generics := generics
      params := implArgs
      returnType := returnType
      getInfo := getInfo
      mockTypeId := mockTypeId
      methodName := methodIdent
      verifyFn := verifyFn
      argValues := argValues }

/-- The per-argument data `generate_impl_method` derives at index `i`:
the matcher type-parameter name `Arg{i}Match`, the value name `arg{i}`,
the possibly lifetime-rebound argument type, and the fresh lifetime
`'a{i}` when the argument type is a reference. -/
structure ArgSpec where
  argTypeIdent : String
  argIdent : String
  newArgType : Ty
  lifetime : Option String

/-- One iteration of `generate_impl_method`'s argument loop. -/
def implMethodArg (i : Nat) (argType : Ty) : ArgSpec :=
  let argTypeIdent := "Arg" ++ Nat.repr i ++ "Match"
  let argIdent := "arg" ++ Nat.repr i
  match argType with
  | Ty.rptr _oldLifetime m t =>
      let lt := "'a" ++ Nat.repr i
      { argTypeIdent := argTypeIdent, argIdent := argIdent
        newArgType := Ty.rptr (some lt) m t, lifetime := some lt }
  | t =>
      { argTypeIdent := argTypeIdent, argIdent := argIdent
        newArgType := t, lifetime := none }

/-- The argument loop of `generate_impl_method`.  The error case models the
source's `unreachable!()` on an argument that is not a plain captured
identifier (the source aborts there). -/
def implMethodArgs (i : Nat) : List FnArg → Except String (List ArgSpec)
  | [] => Except.ok []
  | FnArg.captured (Pat.identPat _ _ _) ty :: rest => do
      let ss ← implMethodArgs (i + 1) rest
      Except.ok (implMethodArg i ty :: ss)
  | _ :: _ => Except.error "argument pattern is not a plain identifier"

/-- `fn generate_impl_method(...)`: the expectation-builder method
`<method>_call`, with one matcher generic parameter per argument, a fresh
lifetime per reference-typed argument, return type
`CallMatch{N}<arg types..., return type>`, and the
`CallMatchN::new(self.mock_id, mock_type_id, method_name, boxed
matchers...)` body. -/
def generate_impl_method (mockTypeId : Nat) (methodIdent : String)
    (generics : Generics) (args : List FnArg) (returnType : Ty) :
    Except String BuilderMethod := do
  let specs ← implMethodArgs 0 args
  let argLifetimes := specs.filterMap (fun s => s.lifetime)
  let newArgTypes := specs.map (fun s => s.newArgType)
  let argMatcherTypes :=
    specs.map (fun s => GenericParam.matcher s.argTypeIdent s.newArgType)
  let inputs := specs.map (fun s => (s.argIdent, s.argTypeIdent))
  let newArgs :=
    [CallArg.selfMockId, CallArg.typeId mockTypeId, CallArg.nameLit methodIdent]
      ++ specs.map (fun s => CallArg.boxed s.argIdent)
  let callMatchIdent := "CallMatch" ++ Nat.repr args.length
  let callMatchArgs := newArgTypes ++ [returnType]
  let expectMethodName := methodIdent ++ "_call"
  let genericParams :=
    argLifetimes.map GenericParam.lifetimeParam
      ++ generics.ty_params.map
          (fun p => GenericParam.tyParam { p with bounds := p.bounds ++ [debugBound] })
      ++ argMatcherTypes
  Except.ok
    { name := expectMethodName
      genericParams := genericParams
      inputs := inputs
      output := (callMatchIdent, callMatchArgs)
      newArgs := newArgs }

/-- The per-argument `Self`-qualification of
`generate_impl_method_for_trait`. -/
def qualifyArg (traitPath : SynPath) : FnArg → FnArg
  | FnArg.selfRef lt m => FnArg.selfRef lt m
  | FnArg.selfValue m => FnArg.selfValue m
  | FnArg.captured pat ty => FnArg.captured pat (qualify_self ty traitPath)
  | FnArg.ignored ty => FnArg.ignored (qualify_self ty traitPath)

/-- `fn generate_impl_method_for_trait(...)`: qualifies every `Self` in the
argument and return types against the trait path, then defers to
`generate_impl_method`. -/
def generate_impl_method_for_trait (mockTypeId : Nat) (methodIdent : String)
    (generics : Generics) (args : List FnArg) (returnType : Ty)
    (traitPath : SynPath) : Except String BuilderMethod :=
  let fixedReturnType := qualify_self returnType traitPath
  let fixedArgs := args.map (qualifyArg traitPath)
  generate_impl_method mockTypeId methodIdent generics fixedArgs fixedReturnType

/-- `fn generate_trait_impl_method(...)`: a stub method whose
`get_info_expr` reads `(self.mock_id, &self.scenario)`. -/
def generate_trait_impl_method (mockTypeId : Nat) (methodIdent : String)
    (generics : Generics) (selfArg : FnArg) (args : List FnArg)
    (returnType : Ty) : Except String StubMethod :=
  generate_stub_code mockTypeId methodIdent generics (some selfArg)
    GetInfoExpr.selfInfo args returnType false

/-- The result record of `generate_trait_methods`. -/
structure GeneratedMethods where
  trait_impl_method : StubMethod
  impl_method : BuilderMethod
  is_static : Bool

/-- A method is static iff its first argument is not a receiver. -/
def methodIsStatic (decl : FnDecl) : Bool :=
  match decl.inputs.head? with
  | some (FnArg.selfRef _ _) => false
  | some (FnArg.selfValue _) => false
  | _ => true

/-- `FunctionRetTy::Default` is the empty tuple type. -/
def declReturnType (decl : FnDecl) : Ty :=
  match decl.output with
  | FunctionRetTy.default => Ty.tup []
  | FunctionRetTy.ty t => t

/-- `fn generate_trait_methods(...)`: dispatches on staticness.  A static
method's `Self` occurrences are replaced by the concrete mock struct path
(`set_self`) and both its methods use the `EXTERN_MOCKS` lookup; an
instance method gets a `(self.mock_id, &self.scenario)` stub and a
builder whose types are qualified against the trait path.  The `[]` case
of the instance branch is unreachable (an empty input list makes
`is_static` true); the source indexes `decl.inputs[0]` there. -/
def generate_trait_methods (methodIdent : String) (decl : FnDecl)
    (generics : Generics) (traitPath : SynPath) (mockTypeId : Nat)
    (mockStructPath : SynPath) : Except String GeneratedMethods :=
  let returnType := declReturnType decl
  if methodIsStatic decl then
    let adjustedReturnType := set_self returnType mockStructPath
    match generate_impl_method mockTypeId methodIdent generics decl.inputs
        adjustedReturnType with
    | Except.error e => Except.error e
    | Except.ok mockMethod =>
      match generate_stub_code mockTypeId methodIdent generics none
          (GetInfoExpr.externLookup mockTypeId) decl.inputs adjustedReturnType
          false with
      | Except.error e => Except.error e
      | Except.ok stubMethod =>
          Except.ok
            { is_static := true
              trait_impl_method := stubMethod
              impl_method := mockMethod }
  else
    match decl.inputs with
    | [] => Except.error "unreachable: non-static method with no inputs"
    | selfArg :: args =>
      let traitImplMethod :=
        generate_trait_impl_method mockTypeId methodIdent generics selfArg
          args returnType
      let implMethod :=
        generate_impl_method_for_trait mockTypeId methodIdent generics args
          returnType traitPath
      match traitImplMethod, implMethod with
      | Except.ok tim, Except.ok im =>
          Except.ok
            { is_static := false, trait_impl_method := tim, impl_method := im }
      | _, _ => Except.error "failed to generate impl"

/-- `fn generate_mock_struct(...)`: reference to the scenario, own id, and
one `PhantomData` per associated-type-turned-type-parameter, folded in a
single tuple field. -/
def generate_mock_struct (mockIdent : String)
    (associatedTypeIdents : List String) : MockStruct :=
  { name := mockIdent
    params := associatedTypeIdents
    fields :=
      [("scenario", FieldTy.scenarioRc), ("mock_id", FieldTy.usizeTy),
       ("_phantom_data", FieldTy.phantomTuple associatedTypeIdents)] }

/-- `fn generate_mock_impl(...)`: the uniform `impl ::mockers::Mock`
block (constructor plus `mocked_class_name`), with the caller-supplied
initialization code spliced into `new`. -/
def generate_mock_impl (mockIdent : String) (mockedClassName : String)
    (associatedTypeIdents : List String) (customInitCode : InitCode) :
    MockImpl :=
  { name := mockIdent
    assocTypes := associatedTypeIdents
    mockedClassName := mockedClassName
    init := customInitCode }

/- ------------------------------------------------------------------ -/
/- `generate_mock_for_traits`: validation and assembly.                -/
/- ------------------------------------------------------------------ -/

/-- The base-trait-bound check of `generate_mock_for_traits`' validation
pass.  The `seen` set models the `trait_paths: HashSet<String>` of
`format!("{:?}", path)` keys; `Debug`-formatting of parsed paths is
injective, so membership coincides with structural path membership.  The
error on nonempty `bound_lifetimes` models the source's `assert!`
panic. -/
def checkBounds (seen : List SynPath) : List TyParamBound → Except String Unit
  | [] => Except.ok ()
  | TyParamBound.traitBound polyTraitRef modifier :: rest =>
      match modifier with
      | TraitBoundModifier.noModifier =>
          if !polyTraitRef.bound_lifetimes.isEmpty then
            Except.error "assertion failed: bound_lifetimes must be empty"
          else if !(seen.any fun p => synPathBEq p polyTraitRef.trait_ref) then
            Except.error "All base trait definitions must be provided"
          else checkBounds seen rest
      | TraitBoundModifier.maybe =>
          Except.error "Type bound modifiers are not supported yet"
  | TyParamBound.region _ :: _ =>
      Except.error "Lifetime parameter bounds are not supported yet"

/-- The shape-validation pass of `generate_mock_for_traits`: rejects
unsafe or parametrized traits, checks each base-trait bound against the
previously accepted trait paths, and yields each trait's full path
(`mod_path` plus its identifier) with its member list. -/
def validateTraits (seen : List SynPath) :
    List TraitDesc → Except String (List (SynPath × List TraitItem))
  | [] => Except.ok []
  | desc :: rest =>
      match desc.trait_item.node with
      | ItemKind.traitItem safety generics bounds subitems =>
          if safety ≠ Safety.normal then
            Except.error "Unsafe traits are not supported yet"
          else if !generics.lifetimes.isEmpty || !generics.ty_params.isEmpty
              || !generics.where_predicates.isEmpty then
            Except.error "Parametrized traits are not supported yet"
          else
            match checkBounds seen bounds with
            | Except.error e => Except.error e
            | Except.ok () =>
                let traitPath := SynPath.mk desc.mod_path.globalFlag
                  (desc.mod_path.segs
                    ++ [PathSegment.mk desc.trait_item.ident
                          PathParameters.noneParams])
                match validateTraits (traitPath :: seen) rest with
                | Except.error e => Except.error e
                | Except.ok ts => Except.ok ((traitPath, subitems) :: ts)
      | _ => Except.error "Only traits are accepted here"

/-- The associated-type gathering over one trait's members. -/
def gatherAssocTypesMembers : List TraitItem → Except String (List String)
  | [] => Except.ok []
  | member :: rest =>
      match member.node with
      | TraitItemKind.typeItem bounds _ =>
          if !bounds.isEmpty then
            Except.error "associated type bounds are not supported yet"
          else
            match gatherAssocTypesMembers rest with
            | Except.error e => Except.error e
            | Except.ok as_ => Except.ok (member.ident :: as_)
      | _ => gatherAssocTypesMembers rest

/-- Associated types gathered from all traits, in trait order. -/
def gatherAssocTypes :
    List (SynPath × List TraitItem) → Except String (List String)
  | [] => Except.ok []
  | (_, members) :: rest => do
      let as_ ← gatherAssocTypesMembers members
      let bs ← gatherAssocTypes rest
      Except.ok (as_ ++ bs)

/-- The generic parameters used for impls
(`impl<A: ::std::fmt::Debug, ...>`): one `Debug`-bounded type parameter
per associated type. -/
def mkImplGenerics (assocTypes : List String) : List TyParam :=
  assocTypes.map fun param => { ident := param, bounds := [debugBound] }

/-- The mock struct type with all type parameters specified
(`struct_path`). -/
def mkStructPath (mockIdent : String) (assocTypes : List String) : SynPath :=
  SynPath.mk false
    [PathSegment.mk mockIdent
      (PathParameters.angleBracketed []
        (assocTypes.map fun ident => Ty.path none (SynPath.mk false [mkSeg ident]))
        [])]

/-- The member loop of `generate_mock_for_traits`: per-method validation
(no unsafe, const, or non-Rust-ABI methods; no trait constants or macros;
no bounded associated types) and partitioning of the generated methods
into instance and static groups, preserving member order. -/
def processMembers (traitPath : SynPath) (structPath : SynPath)
    (mockTypeId : Nat) :
    List TraitItem →
    Except String
      (List BuilderMethod × List StubMethod × List BuilderMethod
        × List StubMethod)
  | [] => Except.ok ([], [], [], [])
  | member :: rest =>
      match member.node with
      | TraitItemKind.method sig _ =>
          if sig.safety ≠ Safety.normal then
            Except.error "unsafe trait methods are not supported"
          else if sig.constness then
            Except.error "const trait methods are not supported"
          else if sig.abi ≠ none then
            Except.error "non-Rust ABIs for trait methods are not supported"
          else
            match generate_trait_methods member.ident sig.decl sig.generics
                traitPath mockTypeId structPath with
            | Except.error e => Except.error e
            | Except.ok methods =>
                match processMembers traitPath structPath mockTypeId rest with
                | Except.error e => Except.error e
                | Except.ok (im, tim, sim, stim) =>
                    if methods.is_static then
                      Except.ok (im, tim, methods.impl_method :: sim,
                        methods.trait_impl_method :: stim)
                    else
                      Except.ok (methods.impl_method :: im,
                        methods.trait_impl_method :: tim, sim, stim)
      | TraitItemKind.typeItem bounds _ =>
          if !bounds.isEmpty then
            Except.error "associated type bounds are not supported yet"
          else processMembers traitPath structPath mockTypeId rest
      | TraitItemKind.constItem _ =>
          Except.error "trait constants are not supported yet"
      | TraitItemKind.macItem _ =>
          Except.error "trait macros are not supported yet"

/-- The trait loop of `generate_mock_for_traits`, passing the
`NEXT_MOCK_TYPE_ID` counter explicitly: each trait is assigned the next
mock type id (pushed onto `mock_type_ids` before its members are
processed); its `impl` and trait-`impl` blocks are emitted; when it has
static methods, the static mock struct, its builder `impl` block, and its
`Mock` impl (whose constructor registers all mock type ids accumulated so
far) are also emitted.  Returns the emitted items, the accumulated id
list, the has-static flag, and the final counter; the counter is advanced
even on an erroring iteration, as the source increments the global before
failing. -/
def processTraits (mockIdent : String) (assocTypes : List String)
    (generics : List TyParam) (structPath : SynPath) :
    List (SynPath × List TraitItem) → Nat → List Nat →
    (Except String (List GenItem × List Nat × Bool)) × Nat
  | [], c, ids => (Except.ok ([], ids, false), c)
  | (traitPath, members) :: rest, c, ids =>
      let mockTypeId := c
      let ids' := ids ++ [mockTypeId]
      match processMembers traitPath structPath mockTypeId members with
      | Except.error e => (Except.error e, c + 1)
      | Except.ok (implMethods, traitImplMethods, staticImplMethods,
          staticTraitImplMethods) =>
          let typeItems := assocTypes.zip assocTypes
          let baseItems :=
            [GenItem.implBlock generics mockIdent implMethods,
             GenItem.traitImplBlock generics traitPath mockIdent typeItems
               traitImplMethods staticTraitImplMethods]
          let staticItems :=
            if staticImplMethods.isEmpty then []
            else
              let staticMockName := mockIdent ++ "Static"
              [GenItem.structItem (generate_mock_struct staticMockName assocTypes),
               GenItem.implBlock generics staticMockName staticImplMethods,
               GenItem.mockImplBlock
                 (generate_mock_impl staticMockName staticMockName assocTypes
                   (InitCode.registerStatics ids' staticMockName))]
          match processTraits mockIdent assocTypes generics structPath rest
              (c + 1) ids' with
          | (Except.error e, c') => (Except.error e, c')
          | (Except.ok (items, idsF, hs), c') =>
              (Except.ok (baseItems ++ staticItems ++ items, idsF,
                !staticImplMethods.isEmpty || hs), c')

/-- `has_generic_method`: some member method has its own type
parameters. -/
def hasGenericMethod (traits : List (SynPath × List TraitItem)) : Bool :=
  traits.any fun t => t.2.any fun member =>
    match member.node with
    | TraitItemKind.method sig _ => !sig.generics.ty_params.isEmpty
    | _ => false

/-- Token rendering of a trait path for the `mocked_class_name` string
(the `"+"`-joined display).  Path parameters are not rendered: every path
joined here is built from parameter-free segments in supported inputs. -/
def pathDisplay (p : SynPath) : String :=
  (if p.globalFlag then "::" else "")
    ++ String.intercalate "::" (p.segs.map fun s => s.segIdent)

/-- The structured result of `generate_mock_for_traits` (in the source, a
token stream): the emitted items together with the resolver artifacts the
emission was driven by. -/
structure MockGenOutput where
  items : List GenItem
  descriptors : List (SynPath × List TraitItem)
  mockTypeIds : List Nat
  hasStaticMethods : Bool
  mockedClassName : String

/-- `fn generate_mock_for_traits(mock_ident, trait_items, local)`.  `local`
is renamed `isLocal` (a Lean keyword).  The counter argument and result
model the global `NEXT_MOCK_TYPE_ID`.  When `traits` is empty and the
`Mocked` impl would be emitted, the source panics indexing
`traits[traits.len()-1]`; callers always pass a nonempty list. -/
def generate_mock_for_traits (mockIdent : String)
    (traitItems : List TraitDesc) (isLocal : Bool) (c : Nat) :
    (Except String MockGenOutput) × Nat :=
  match validateTraits [] traitItems with
  | Except.error e => (Except.error e, c)
  | Except.ok traits =>
    match gatherAssocTypes traits with
    | Except.error e => (Except.error e, c)
    | Except.ok assocTypes =>
      let structItem := GenItem.structItem (generate_mock_struct mockIdent assocTypes)
      let generics := mkImplGenerics assocTypes
      let structPath := mkStructPath mockIdent assocTypes
      match processTraits mockIdent assocTypes generics structPath traits c [] with
      | (Except.error e, c') => (Except.error e, c')
      | (Except.ok (loopItems, mockTypeIds, hasStatics), c') =>
          let mockedClassName :=
            String.intercalate "+" (traits.map fun t => pathDisplay t.1)
          let mockImplItem := GenItem.mockImplBlock
            (generate_mock_impl mockIdent mockedClassName assocTypes InitCode.empty)
          let debugItem := GenItem.debugImplBlock mockIdent
          let tailItems :=
            if isLocal && !hasGenericMethod traits && !hasStatics then
              match traits.getLast? with
              | some (traitPath, _) =>
                  [GenItem.mockedImplBlock traitPath mockIdent assocTypes]
              | none => []
            else []
          (Except.ok
            { items := structItem :: loopItems ++ [mockImplItem, debugItem] ++ tailItems
              descriptors := traits
              mockTypeIds := mockTypeIds
              hasStaticMethods := hasStatics
              mockedClassName := mockedClassName }, c')

/- ------------------------------------------------------------------ -/
/- `generate_extern_mock` and `generate_mock`.                         -/
/- ------------------------------------------------------------------ -/

/-- The item loop of `generate_extern_mock`: one builder method and one
forwarding (unsafe) free function per extern `fn`; extern statics are
rejected. -/
def processForeignItems (mockTypeId : Nat) :
    List ForeignItem → Except String (List BuilderMethod × List StubMethod)
  | [] => Except.ok ([], [])
  | item :: rest =>
      match item.node with
      | ForeignItemKind.fn decl generics =>
          let retTy := declReturnType decl
          match generate_impl_method mockTypeId item.ident generics decl.inputs
              retTy with
          | Except.error e => Except.error e
          | Except.ok mockMethod =>
              match generate_stub_code mockTypeId item.ident generics none
                  (GetInfoExpr.externLookup mockTypeId) decl.inputs retTy
                  true with
              | Except.error e => Except.error e
              | Except.ok stubMethod =>
                  match processForeignItems mockTypeId rest with
                  | Except.error e => Except.error e
                  | Except.ok (ms, ss) =>
                      Except.ok (mockMethod :: ms, stubMethod :: ss)
      | ForeignItemKind.staticItem _ =>
          Except.error "extern statics are not supported"

/-- `fn generate_extern_mock(foreign_mod, mock_ident)`: assigns one fresh
mock type id to the whole block (consumed even when a later item errors),
and emits the minimal mock struct, its registering `Mock` impl, a `Drop`
impl removing the id from `EXTERN_MOCKS`, the builder impl block, and the
forwarding free functions. -/
def generate_extern_mock (foreignItems : List ForeignItem)
    (mockIdent : String) (c : Nat) : (Except String (List GenItem)) × Nat :=
  let mockTypeId := c
  match processForeignItems mockTypeId foreignItems with
  | Except.error e => (Except.error e, c + 1)
  | Except.ok (mockItems, stubItems) =>
      let mockClassName := mockIdent
      (Except.ok
        ([GenItem.externStruct mockIdent,
          GenItem.externMockImplBlock
            { name := mockIdent, assocTypes := [],
              mockedClassName := mockClassName,
              init := InitCode.registerExternBlock mockTypeId mockClassName },
          GenItem.dropImplBlock mockIdent mockTypeId,
          GenItem.implBlock [] mockIdent mockItems]
          ++ stubItems.map GenItem.stubFn), c + 1)

/-- One base-trait bound resolution in `generate_mock` (entry point A):
reject lifetime bounds, resolve a non-global path through the `refs`
option, look the full path up in `KNOWN_TRAITS`, and build the
`TraitDesc` whose module path is the reference path as written minus its
last segment. -/
def resolveBound (refs : List (SynPath × SynPath))
    (known : List (SynPath × Item)) :
    TyParamBound → Except String TraitDesc
  | TyParamBound.region _ =>
      Except.error "lifetime parameters not supported yet"
  | TyParamBound.traitBound polyTraitRef _modifier =>
      let path := polyTraitRef.trait_ref
      let fullPath? :=
        if path.globalFlag then some path else lookupRef refs path
      match fullPath? with
      | none =>
          Except.error "parent trait path must be given using refs param"
      | some fullPath =>
          match lookupPath known fullPath with
          | some referencedTrait =>
              Except.ok
                { mod_path := SynPath.mk path.globalFlag path.segs.dropLast
                  trait_item := referencedTrait }
          | none => Except.error "Cannot resolve trait reference"

/-- The `referenced_items` resolution of `generate_mock`, in bound
declaration order. -/
def resolveReferenced (refs : List (SynPath × SynPath))
    (known : List (SynPath × Item)) :
    List TyParamBound → Except String (List TraitDesc)
  | [] => Except.ok []
  | b :: bs =>
      match resolveBound refs known b with
      | Except.error e => Except.error e
      | Except.ok d =>
          match resolveReferenced refs known bs with
          | Except.error e => Except.error e
          | Except.ok ds => Except.ok (d :: ds)

/-- `fn generate_mock(item, opts)` (entry point A), with the process-wide
state passed explicitly.  For a trait item: resolve the declared bases,
then (if `module_path` is supplied) insert the trait into `KNOWN_TRAITS`
under `module_path::ident` — before any shape validation runs — and
finally call `generate_mock_for_traits` on bases-then-primary with
`local = true`.  For an extern block: require an explicit mock name and
defer to `generate_extern_mock`.  The boolean result is `include_source`. -/
def generate_mock (item : Item) (opts : MockAttrOptions) (st : GenState) :
    (Except String (MockGenOutput × Bool)) × GenState :=
  match item.node with
  | ItemKind.traitItem _ _ bounds _ =>
      let mockIdent :=
        match opts.mock_name with
        | some n => n
        | none => item.ident ++ "Mock"
      match resolveReferenced opts.refs st.knownTraits bounds with
      | Except.error e => (Except.error e, st)
      | Except.ok referencedItems =>
          let st1 :=
            match opts.module_path with
            | some modulePath =>
                let fullPath := SynPath.mk modulePath.globalFlag
                  (modulePath.segs
                    ++ [PathSegment.mk item.ident PathParameters.noneParams])
                { st with knownTraits := insertPath st.knownTraits fullPath item }
            | none => st
          let traitDesc : TraitDesc := ⟨SynPath.mk false [], item⟩
          let allTraits := referencedItems ++ [traitDesc]
          match generate_mock_for_traits mockIdent allTraits true
              st1.nextMockTypeId with
          | (Except.error e, c') =>
              (Except.error e, { st1 with nextMockTypeId := c' })
          | (Except.ok out, c') =>
              (Except.ok (out, true), { st1 with nextMockTypeId := c' })
  | ItemKind.foreignMod foreignItems =>
      match opts.mock_name with
      | none =>
          (Except.error "mock type name must be set explicitly for extern block",
            st)
      | some mockName =>
          match generate_extern_mock foreignItems mockName
              st.nextMockTypeId with
          | (Except.error e, c') =>
              (Except.error e, { st with nextMockTypeId := c' })
          | (Except.ok items, c') =>
              (Except.ok
                ({ items := items, descriptors := [],
                   mockTypeIds := [st.nextMockTypeId],
                   hasStaticMethods := false,
                   mockedClassName := mockName }, false),
                { st with nextMockTypeId := c' })
  | ItemKind.otherItem _ =>
      (Except.error "Attribute may be used on traits and extern blocks only", st)

/- ------------------------------------------------------------------ -/
/- Run-time semantics of the emitted registration code.                -/
/- ------------------------------------------------------------------ -/

/-- The `EXTERN_MOCKS` thread-local table: mock type id to the registered
instance's mock id (the scenario handle, cloned alongside, is not
modelled).  Modelled as an association list with unique keys. -/
abbrev ExternMocksTable := List (Nat × Nat)

/-- `mocks.contains_key(key)`. -/
def tableContains : ExternMocksTable → Nat → Bool
  | [], _ => false
  | (k, _) :: rest, key => k == key || tableContains rest key

/-- `mocks.get(key)`. -/
def tableLookup : ExternMocksTable → Nat → Option Nat
  | [], _ => none
  | (k, v) :: rest, key => if k == key then some v else tableLookup rest key

/-- `mocks.insert(key, value)` (overwrites an existing key). -/
def tableInsert : ExternMocksTable → Nat → Nat → ExternMocksTable
  | [], key, v => [(key, v)]
  | (k, v') :: rest, key, v =>
      if k == key then (key, v) :: rest else (k, v') :: tableInsert rest key v

/-- `mocks.remove(&key)`. -/
def tableRemove : ExternMocksTable → Nat → ExternMocksTable
  | [], _ => []
  | (k, v) :: rest, key =>
      if k == key then rest else (k, v) :: tableRemove rest key

/-- The registration loop a trait-based static mock's constructor runs
(`for mock_type_id in &mock_type_ids { if contains panic; insert }`); the
panic is modelled as `Except.error`. -/
def runRegisterStatics (staticMockName : String) (instanceId : Nat) :
    List Nat → ExternMocksTable → Except String ExternMocksTable
  | [], table => Except.ok table
  | mid :: rest, table =>
      if tableContains table mid then
        Except.error
          ("Mock " ++ staticMockName ++ " for static methods already exists")
      else runRegisterStatics staticMockName instanceId rest
            (tableInsert table mid instanceId)

/-- The registration an extern mock's constructor runs (single id). -/
def runRegisterExtern (mockClassName : String) (instanceId : Nat)
    (mockTypeId : Nat) (table : ExternMocksTable) :
    Except String ExternMocksTable :=
  if tableContains table mockTypeId then
    Except.error ("Mock " ++ mockClassName ++ " for extern block already exists")
  else Except.ok (tableInsert table mockTypeId instanceId)

/-- Run the custom initialization code of a generated `Mock::new`. -/
def runInit (init : InitCode) (instanceId : Nat) (table : ExternMocksTable) :
    Except String ExternMocksTable :=
  match init with
  | InitCode.empty => Except.ok table
  | InitCode.registerStatics ids name =>
      runRegisterStatics name instanceId ids table
  | InitCode.registerExternBlock id name =>
      runRegisterExtern name instanceId id table

/-- The body of the extern mock's generated `Drop::drop`. -/
def runExternDrop (mockTypeId : Nat) (table : ExternMocksTable) :
    ExternMocksTable :=
  tableRemove table mockTypeId

/-- The decimal character list of a natural number, via `Nat.digits`. -/
def decChars (n : Nat) : List Char :=
  if n = 0 then ['0'] else ((Nat.digits 10 n).map Nat.digitChar).reverse


/- ------------------------------------------------------------------ -/
/- Concrete fixtures used by witnesses and counterexamples.            -/
/- ------------------------------------------------------------------ -/

/-- The type `String` (as a plain path type). -/
def tyString : Ty := Ty.path none (SynPath.mk false [mkSeg "String"])

/-- The bare type `Self`. -/
def tySelf : Ty := Ty.path none (SynPath.mk false [mkSeg "Self"])

/-- The type `u32`. -/
def tyU32 : Ty := Ty.path none (SynPath.mk false [mkSeg "u32"])

/-- The type `&u32` (no explicit lifetime). -/
def tyRefU32 : Ty := Ty.rptr none Mutability.immutable tyU32

/-- A `&self` receiver. -/
def selfRefArg : FnArg := FnArg.selfRef none Mutability.immutable

/-- A by-value named argument. -/
def capturedArg (n : String) (t : Ty) : FnArg :=
  FnArg.captured (Pat.identPat (BindingMode.byValue Mutability.immutable) n none) t

/-- A plain (safe, non-const, Rust-ABI, non-generic) method signature. -/
def mkMethodSig (inputs : List FnArg) (output : FunctionRetTy) : MethodSig :=
  { safety := Safety.normal, constness := false, abi := none,
    decl := { inputs := inputs, output := output, variadic := false },
    generics := Generics.empty }

/-- `trait Greeter { fn greet(&self, name: String) -> String; }`. -/
def greeterItem : Item :=
  { ident := "Greeter",
    node := ItemKind.traitItem Safety.normal Generics.empty []
      [⟨"greet", TraitItemKind.method
          (mkMethodSig [selfRefArg, capturedArg "name" tyString]
            (FunctionRetTy.ty tyString)) true⟩] }

/-- `trait Factory { fn create() -> Self; fn use_it(&self); }`. -/
def factoryItem : Item :=
  { ident := "Factory",
    node := ItemKind.traitItem Safety.normal Generics.empty []
      [⟨"create", TraitItemKind.method
          (mkMethodSig [] (FunctionRetTy.ty tySelf)) true⟩,
       ⟨"use_it", TraitItemKind.method
          (mkMethodSig [selfRefArg] FunctionRetTy.default) true⟩] }

/-- The local (empty) module path of a primary trait. -/
def emptyModPath : SynPath := SynPath.mk false []

/-- `trait A { fn a(&self); }`, registered under `::m::A`. -/
def traitA : Item :=
  { ident := "A",
    node := ItemKind.traitItem Safety.normal Generics.empty []
      [⟨"a", TraitItemKind.method (mkMethodSig [selfRefArg] FunctionRetTy.default)
          true⟩] }

/-- The full path `::m::A`. -/
def pathMA : SynPath := SynPath.mk true [mkSeg "m", mkSeg "A"]

/-- `trait B: ::m::A { fn b(&self); }`. -/
def traitB : Item :=
  { ident := "B",
    node := ItemKind.traitItem Safety.normal Generics.empty
      [TyParamBound.traitBound ⟨[], pathMA⟩ TraitBoundModifier.noModifier]
      [⟨"b", TraitItemKind.method (mkMethodSig [selfRefArg] FunctionRetTy.default)
          true⟩] }

/-- A generator state in which `::m::A` is registered. -/
def stA : GenState := { knownTraits := [(pathMA, traitA)], nextMockTypeId := 3 }

/-- Options with no name override, no refs, no module path. -/
def plainOpts : MockAttrOptions :=
  { mock_name := none, refs := [], module_path := none }

/-- `extern "C" { fn foo(x: String); }`. -/
def externFoo : ForeignItem :=
  ⟨"foo", ForeignItemKind.fn
    { inputs := [capturedArg "x" tyString], output := FunctionRetTy.default,
      variadic := false } Generics.empty⟩

/-- Extract the output of a successful `generate_mock_for_traits` run (the
fallback is never reached on the concrete inputs we instantiate at). -/
def mockGenOutputOf (r : (Except String MockGenOutput) × Nat) : MockGenOutput :=
  match r.1 with
  | Except.ok out => out
  | Except.error _ =>
      { items := [], descriptors := [], mockTypeIds := [],
        hasStaticMethods := false, mockedClassName := "" }

/-- Extract the output of a successful `generate_mock` run. -/
def genOutputOf (r : (Except String (MockGenOutput × Bool)) × GenState) :
    MockGenOutput :=
  match r.1 with
  | Except.ok (out, _) => out
  | Except.error _ =>
      { items := [], descriptors := [], mockTypeIds := [],
        hasStaticMethods := false, mockedClassName := "" }

/-- Extract the items of a successful `generate_extern_mock` run. -/
def externItemsOf (r : (Except String (List GenItem)) × Nat) : List GenItem :=
  match r.1 with
  | Except.ok items => items
  | Except.error _ => []

/-- Extract a successful `generate_trait_methods` result. -/
def traitMethodsOf (r : Except String GeneratedMethods) : GeneratedMethods :=
  match r with
  | Except.ok gm => gm
  | Except.error _ =>
      { trait_impl_method :=
          { declaredUnsafe := false, name := "", generics := Generics.empty,
            params := [], returnType := Ty.never,
            getInfo := GetInfoExpr.selfInfo, mockTypeId := 0, methodName := "",
            verifyFn := "", argValues := [] }
        impl_method :=
          { name := "", genericParams := [], inputs := [], output := ("", []),
            newArgs := [] }
        is_static := false }

/- ------------------------------------------------------------------ -/
/- Claim C6.                                                           -/
/- ------------------------------------------------------------------ -/

/-- The counterexample input of C6: the parenthesized type `(Self)`. -/
def c6Input : Ty := Ty.paren tySelf

/-- An arbitrary trait path for C6. -/
def c6TraitPath : SynPath := SynPath.mk false [mkSeg "Greeter"]

/-- Observer separating a parenthesized unqualified path from a
parenthesized qualified one. -/
def parenUnqualObs : Ty → Bool
  | Ty.paren (Ty.path none _) => true
  | _ => false


/-- Recognizer for generated `Drop` impl items. -/
def isDropItem : GenItem → Bool
  | GenItem.dropImplBlock _ _ => true
  | _ => false

/-- The mock type ids removed by the `Drop` impls of an item list. -/
def dropIds : List GenItem → List Nat
  | [] => []
  | GenItem.dropImplBlock _ i :: rest => i :: dropIds rest
  | _ :: rest => dropIds rest

/-- The extern-mock generation output for `extern { fn foo(x: String); }`
under mock name `FooMock` at counter 5. -/
def externFooItems : List GenItem :=
  externItemsOf (generate_extern_mock [externFoo] "FooMock" 5)

/-- The trait-based generation output for the `Factory` trait (which has a
static method and hence a static mock) at counter 7. -/
def factoryGenOut : MockGenOutput :=
  mockGenOutputOf
    (generate_mock_for_traits "FactoryMock" [⟨emptyModPath, factoryItem⟩] true 7)

/-- Whether an argument is a receiver (`&self`, `&mut self`, `self`). -/
def isSelfReceiver : FnArg → Bool
  | FnArg.selfRef _ _ => true
  | FnArg.selfValue _ => true
  | _ => false

/-- All argument names, defined when every argument is a plain bound
identifier (the supported shape). -/
def capturedNames : List FnArg → Option (List String)
  | [] => some []
  | FnArg.captured (Pat.identPat _ n _) _ :: rest =>
      (capturedNames rest).map fun ns => n :: ns
  | _ :: _ => none

/-- Whether an argument's declared type is a reference type. -/
def argIsRef : FnArg → Bool
  | FnArg.captured _ (Ty.rptr _ _ _) => true
  | _ => false

/-- The positions (from `i`) of the reference-typed arguments. -/
def refIndicesFrom (i : Nat) : List FnArg → List Nat
  | [] => []
  | a :: rest =>
      if argIsRef a then i :: refIndicesFrom (i + 1) rest
      else refIndicesFrom (i + 1) rest

/-- The name/type view of an argument (the declared parameter list modulo
binding modes). -/
def argNameTy : FnArg → Option (String × Ty)
  | FnArg.captured (Pat.identPat _ n _) ty => some (n, ty)
  | _ => none

/-- The lifetime names among a builder's generic parameters. -/
def lifetimeNames : List GenericParam → List String
  | [] => []
  | GenericParam.lifetimeParam n :: rest => n :: lifetimeNames rest
  | _ :: rest => lifetimeNames rest

/-- `fn greet(&self, name: String) -> String` of the Greeter fixture. -/
def greetDecl : FnDecl :=
  { inputs := [selfRefArg, capturedArg "name" tyString],
    output := FunctionRetTy.ty tyString, variadic := false }

/-- The trait path `Greeter`. -/
def greeterTraitPath : SynPath := SynPath.mk false [mkSeg "Greeter"]

/-- The (parameterless) mock struct path `GreeterMock<>`. -/
def greeterStructPath : SynPath := mkStructPath "GreeterMock" []

/-- The generated methods for `greet`. -/
def greetGm : GeneratedMethods :=
  traitMethodsOf
    (generate_trait_methods "greet" greetDecl Generics.empty greeterTraitPath
      0 greeterStructPath)

/-- `fn refm(&self, a: &u32, b: u32, c: &u32)` (two reference-typed
parameters). -/
def refmDecl : FnDecl :=
  { inputs := [selfRefArg, capturedArg "a" tyRefU32, capturedArg "b" tyU32,
               capturedArg "c" tyRefU32],
    output := FunctionRetTy.default, variadic := false }

/-- The generated methods for `refm`. -/
def refmGm : GeneratedMethods :=
  traitMethodsOf
    (generate_trait_methods "refm" refmDecl Generics.empty greeterTraitPath
      4 greeterStructPath)

/-- `fn create() -> Self` of the Factory fixture. -/
def createDecl : FnDecl :=
  { inputs := [], output := FunctionRetTy.ty tySelf, variadic := false }

/-- The (parameterless) mock struct path `FactoryMock<>`. -/
def factoryStructPath : SynPath := mkStructPath "FactoryMock" []

/-- The generated methods for `create` (a static method). -/
def createGm : GeneratedMethods :=
  traitMethodsOf
    (generate_trait_methods "create" createDecl Generics.empty
      (SynPath.mk false [mkSeg "Factory"]) 7 factoryStructPath)

/-- The associated-type identifiers of a member list (pure view of the
gathering pass). -/
def assocIdentsMembers : List TraitItem → List String
  | [] => []
  | m :: rest =>
      match m.node with
      | TraitItemKind.typeItem _ _ => m.ident :: assocIdentsMembers rest
      | _ => assocIdentsMembers rest

/-- The associated-type identifiers of all traits, in order. -/
def assocIdentsOf : List (SynPath × List TraitItem) → List String
  | [] => []
  | (_, ms) :: rest => assocIdentsMembers ms ++ assocIdentsOf rest

/-- Whether a trait member is a static (receiver-less) method. -/
def memberIsStaticMethod (m : TraitItem) : Bool :=
  match m.node with
  | TraitItemKind.method sig _ => methodIsStatic sig.decl
  | _ => false

/-- Whether any member of any trait is a static method. -/
def anyStaticMethod (traits : List (SynPath × List TraitItem)) : Bool :=
  traits.any fun t => t.2.any memberIsStaticMethod

/-- Recognizer for the `Mocked` convenience impl item. -/
def isMockedImplItem : GenItem → Bool
  | GenItem.mockedImplBlock _ _ _ => true
  | _ => false

/-- The full trait path a `TraitDesc` is validated under
(`mod_path` followed by the trait's identifier). -/
def traitPathOf (d : TraitDesc) : SynPath :=
  SynPath.mk d.mod_path.globalFlag
    (d.mod_path.segs
      ++ [PathSegment.mk d.trait_item.ident PathParameters.noneParams])

/-- The path a trait is registered under when `module_path` is given. -/
def registeredPath (modulePath : SynPath) (ident : String) : SynPath :=
  SynPath.mk modulePath.globalFlag
    (modulePath.segs ++ [PathSegment.mk ident PathParameters.noneParams])

/-- The two-trait (base plus primary) generation output, used to exercise
the multi-interface case. -/
def twoTraitOut : MockGenOutput :=
  mockGenOutputOf
    (generate_mock_for_traits "BMock"
      [⟨SynPath.mk true [mkSeg "m"], traitA⟩, ⟨emptyModPath, traitB⟩] true 0)

/-- The `generate_mock` run of trait `B` (base `::m::A`) against the state
registering `::m::A`. -/
def bGenOut : MockGenOutput :=
  genOutputOf (generate_mock traitB plainOpts stA)

/-- The final state of that run. -/
def bGenSt : GenState := (generate_mock traitB plainOpts stA).2

/-- A parametrized (hence rejected) trait. -/
def badTrait : Item :=
  { ident := "Bad",
    node := ItemKind.traitItem Safety.normal
      { lifetimes := [], ty_params := [{ ident := "T", bounds := [] }],
        where_predicates := [] } [] [] }

/-- Options registering the processed trait under `::m2`. -/
def mpOpts : MockAttrOptions :=
  { mock_name := none, refs := [],
    module_path := some (SynPath.mk true [mkSeg "m2"]) }

/-- An initially empty generator state. -/
def emptyGenState : GenState := { knownTraits := [], nextMockTypeId := 0 }

/-- `trait WithAssoc { type Output; fn get(&self) -> String; }`. -/
def assocTrait : Item :=
  { ident := "WithAssoc",
    node := ItemKind.traitItem Safety.normal Generics.empty []
      [⟨"Output", TraitItemKind.typeItem [] none⟩,
       ⟨"get", TraitItemKind.method
          (mkMethodSig [selfRefArg] (FunctionRetTy.ty tyString)) true⟩] }

/-- The generation output of the one-associated-type trait. -/
def assocOut : MockGenOutput :=
  mockGenOutputOf
    (generate_mock_for_traits "WithAssocMock" [⟨emptyModPath, assocTrait⟩]
      true 0)



/- ------------------------------------------------------------------ -/
/- Injectivity of decimal rendering (`Nat.repr`), needed to show the   -/
/- freshness (pairwise distinctness) of generated lifetime names.      -/
/- ------------------------------------------------------------------ -/

theorem toDigitsCore_eq_decChars :
    ∀ (n f : Nat) (acc : List Char), n < f →
      Nat.toDigitsCore 10 f n acc = decChars n ++ acc := by
  intro n
  induction n using Nat.strong_induction_on with
  | _ n ih =>
    intro f acc hf
    match f, hf with
    | f + 1, _ =>
      simp only [Nat.toDigitsCore]
      by_cases h0 : n / 10 = 0
      · have hn10 : n < 10 := by omega
        simp only [h0, if_true]
        by_cases hz : n = 0
        · subst hz
          simp only [decChars, if_pos rfl]
          norm_num
          rfl
        · have : n % 10 = n := Nat.mod_eq_of_lt hn10
          simp [decChars, hz, Nat.digits_of_lt 10 n hz hn10, this]
      · have hnpos : 0 < n := by omega
        have hdiv : n / 10 < n := Nat.div_lt_self hnpos (by norm_num)
        have hltf : n / 10 < f := by omega
        simp only [h0, if_false]
        rw [ih (n / 10) hdiv f (Nat.digitChar (n % 10) :: acc) hltf]
        have hd : decChars n = decChars (n / 10) ++ [Nat.digitChar (n % 10)] := by
          have hne : n ≠ 0 := Nat.pos_iff_ne_zero.mp hnpos
          simp only [decChars, if_neg hne, if_neg h0]
          rw [Nat.digits_def' (by norm_num : (1 : Nat) < 10) hnpos]
          simp
        rw [hd, List.append_assoc, List.singleton_append]

theorem repr_eq_decChars (n : Nat) : Nat.repr n = (decChars n).asString := by
  show (Nat.toDigits 10 n).asString = _
  rw [Nat.toDigits, toDigitsCore_eq_decChars n (n + 1) [] (Nat.lt_succ_self n),
    List.append_nil]

theorem digitChar_inj10 {a b : Nat} (ha : a < 10) (hb : b < 10)
    (h : Nat.digitChar a = Nat.digitChar b) : a = b := by
  interval_cases a <;> interval_cases b <;> revert h <;> decide

theorem map_digitChar_inj :
    ∀ (l1 l2 : List Nat), (∀ x ∈ l1, x < 10) → (∀ x ∈ l2, x < 10) →
      l1.map Nat.digitChar = l2.map Nat.digitChar → l1 = l2
  | [], [], _, _, _ => rfl
  | [], _ :: _, _, _, h => by simp at h
  | _ :: _, [], _, _, h => by simp at h
  | a :: l1, b :: l2, h1, h2, h => by
      simp only [List.map_cons, List.cons.injEq] at h
      have hab : a = b :=
        digitChar_inj10 (h1 a (by simp)) (h2 b (by simp)) h.1
      have : l1 = l2 :=
        map_digitChar_inj l1 l2 (fun x hx => h1 x (by simp [hx]))
          (fun x hx => h2 x (by simp [hx])) h.2
      rw [hab, this]

theorem decChars_singleton_zero {m : Nat} (hm : m ≠ 0)
    (h : decChars m = ['0']) : False := by
  simp only [decChars, if_neg hm] at h
  have h' : (Nat.digits 10 m).map Nat.digitChar = ['0'] := by
    have := congrArg List.reverse h
    simpa using this
  have hd : Nat.digits 10 m = [0] := by
    apply map_digitChar_inj _ [0]
    · intro x hx; exact Nat.digits_lt_base (by norm_num) hx
    · intro x hx; simp at hx; omega
    · simpa using h'
  have := Nat.ofDigits_digits 10 m
  rw [hd] at this
  simp [Nat.ofDigits] at this
  omega

theorem decChars_inj {a b : Nat} (h : decChars a = decChars b) : a = b := by
  by_cases ha : a = 0 <;> by_cases hb : b = 0
  · omega
  · exact absurd (by rw [← h, ha, decChars]; simp) (fun hh => decChars_singleton_zero hb hh)
  · exact absurd (by rw [h, hb, decChars]; simp) (fun hh => decChars_singleton_zero ha hh)
  · simp only [decChars, if_neg ha, if_neg hb] at h
    have h' : (Nat.digits 10 a).map Nat.digitChar = (Nat.digits 10 b).map Nat.digitChar := by
      have := congrArg List.reverse h
      simpa using this
    have hd : Nat.digits 10 a = Nat.digits 10 b :=
      map_digitChar_inj _ _
        (fun x hx => Nat.digits_lt_base (by norm_num) hx)
        (fun x hx => Nat.digits_lt_base (by norm_num) hx) h'
    have := congrArg (Nat.ofDigits 10) hd
    rwa [Nat.ofDigits_digits, Nat.ofDigits_digits] at this

theorem natRepr_injective : Function.Injective Nat.repr := by
  intro a b h
  apply decChars_inj
  apply List.asString_inj.mp
  rw [← repr_eq_decChars, ← repr_eq_decChars]
  exact h

theorem string_append_left_cancel {p s t : String} (h : p ++ s = p ++ t) :
    s = t := by
  have hdata : p.data ++ s.data = p.data ++ t.data := by
    have := congrArg String.data h
    simpa [String.data_append] using this
  have : s.data = t.data := List.append_cancel_left hdata
  cases s with
  | mk ds =>
    cases t with
    | mk dt =>
      exact congrArg String.mk (by simpa using this)

/-- The generated lifetime names `'a0, 'a1, ...` are pairwise distinct. -/
theorem mkLifetime_injective :
    Function.Injective (fun i : Nat => "'a" ++ Nat.repr i) := by
  intro a b h
  exact natRepr_injective (string_append_left_cancel h)

/- ------------------------------------------------------------------ -/
/- The code traversal agrees with the claim traversal extended with    -/
/- parenthesized types (mutual induction over the type family).        -/
/- ------------------------------------------------------------------ -/

mutual

theorem process_ty_claim (f : PathSegment → List PathSegment → Ty) :
    ∀ t, process_ty f t = claimWalkTy true f t
  | Ty.slice t => by
      simp only [process_ty, claimWalkTy, process_ty_claim f t]
  | Ty.array t n => by
      simp only [process_ty, claimWalkTy, process_ty_claim f t]
  | Ty.ptr m t => by
      simp only [process_ty, claimWalkTy, process_ty_claim f t]
  | Ty.rptr lt m t => by
      simp only [process_ty, claimWalkTy, process_ty_claim f t]
  | Ty.bareFn s abi lts inputs output variadic => by
      simp only [process_ty, claimWalkTy, process_bare_fn_args_claim f inputs,
        process_function_ret_ty_claim f output]
  | Ty.never => by simp only [process_ty, claimWalkTy]
  | Ty.tup ts => by
      simp only [process_ty, claimWalkTy, process_ty_list_claim f ts]
  | Ty.path none (SynPath.mk g []) => by
      simp only [process_ty, claimWalkTy, process_path_claim f]
  | Ty.path none (SynPath.mk g (s :: rest)) => by
      by_cases h : s.segIdent = "Self"
      · simp only [process_ty, claimWalkTy, h, if_true]
      · simp only [process_ty, claimWalkTy, h, if_false,
          process_path_claim f (SynPath.mk g (s :: rest))]
  | Ty.path (some q) p => by
      simp only [process_ty, claimWalkTy, process_path_claim f p]
  | Ty.traitObject b => by simp only [process_ty, claimWalkTy]
  | Ty.implTrait b => by simp only [process_ty, claimWalkTy]
  | Ty.paren t => by
      simp only [process_ty, claimWalkTy, process_ty_claim f t, if_true]
  | Ty.infer => by simp only [process_ty, claimWalkTy]
  | Ty.mac m => by simp only [process_ty, claimWalkTy]

theorem process_ty_list_claim (f : PathSegment → List PathSegment → Ty) :
    ∀ ts, process_ty_list f ts = claimWalkTyList true f ts
  | [] => by simp only [process_ty_list, claimWalkTyList]
  | t :: ts => by
      simp only [process_ty_list, claimWalkTyList, process_ty_claim f t,
        process_ty_list_claim f ts]

theorem process_bare_fn_args_claim (f : PathSegment → List PathSegment → Ty) :
    ∀ as_, process_bare_fn_args f as_ = claimWalkBareFnArgs true f as_
  | [] => by simp only [process_bare_fn_args, claimWalkBareFnArgs]
  | BareFnArg.mk n t :: rest => by
      simp only [process_bare_fn_args, claimWalkBareFnArgs, process_ty_claim f t,
        process_bare_fn_args_claim f rest]

theorem process_function_ret_ty_claim (f : PathSegment → List PathSegment → Ty) :
    ∀ r, process_function_ret_ty f r = claimWalkRetTy true f r
  | FunctionRetTy.default => by simp only [process_function_ret_ty, claimWalkRetTy]
  | FunctionRetTy.ty t => by
      simp only [process_function_ret_ty, claimWalkRetTy, process_ty_claim f t]

theorem process_path_claim (f : PathSegment → List PathSegment → Ty) :
    ∀ p, process_path f p = claimWalkPath true f p
  | SynPath.mk g segs => by
      simp only [process_path, claimWalkPath, process_segs_claim f segs]

theorem process_segs_claim (f : PathSegment → List PathSegment → Ty) :
    ∀ segs, process_segs f segs = claimWalkSegs true f segs
  | [] => by simp only [process_segs, claimWalkSegs]
  | PathSegment.mk i params :: rest => by
      simp only [process_segs, claimWalkSegs, process_params_claim f params,
        process_segs_claim f rest]

theorem process_params_claim (f : PathSegment → List PathSegment → Ty) :
    ∀ ps, process_params f ps = claimWalkParams true f ps
  | PathParameters.angleBracketed lts tys bs => by
      simp only [process_params, claimWalkParams, process_ty_list_claim f tys,
        process_bindings_claim f bs]
  | PathParameters.parenthesized ins outp => by
      simp only [process_params, claimWalkParams, process_ty_list_claim f ins,
        process_opt_ty_claim f outp]

theorem process_bindings_claim (f : PathSegment → List PathSegment → Ty) :
    ∀ bs, process_bindings f bs = claimWalkBindings true f bs
  | [] => by simp only [process_bindings, claimWalkBindings]
  | TypeBinding.mk i t :: rest => by
      simp only [process_bindings, claimWalkBindings, process_ty_claim f t,
        process_bindings_claim f rest]

theorem process_opt_ty_claim (f : PathSegment → List PathSegment → Ty) :
    ∀ ot, process_opt_ty f ot = claimWalkOptTy true f ot
  | none => by simp only [process_opt_ty, claimWalkOptTy]
  | some t => by
      simp only [process_opt_ty, claimWalkOptTy, process_ty_claim f t]

end

/- ------------------------------------------------------------------ -/
/- Reflexivity of the structural equality (mutual induction).          -/
/- ------------------------------------------------------------------ -/

set_option maxHeartbeats 1600000 in
mutual

theorem tyBEq_refl : ∀ t, tyBEq t t = true
  | Ty.slice t => by simp [tyBEq, tyBEq_refl t]
  | Ty.array t n => by simp [tyBEq, tyBEq_refl t]
  | Ty.ptr m t => by simp [tyBEq, tyBEq_refl t]
  | Ty.rptr lt m t => by simp [tyBEq, tyBEq_refl t]
  | Ty.bareFn s abi lts inputs output variadic => by
      simp [tyBEq, bareFnArgsBEq_refl inputs, retTyBEq_refl output]
  | Ty.never => by simp [tyBEq]
  | Ty.tup ts => by simp [tyBEq, tyListBEq_refl ts]
  | Ty.path q p => by simp [tyBEq, qselfOptBEq_refl q, synPathBEq_refl p]
  | Ty.traitObject b => by simp [tyBEq]
  | Ty.implTrait b => by simp [tyBEq]
  | Ty.paren t => by simp [tyBEq, tyBEq_refl t]
  | Ty.infer => by simp [tyBEq]
  | Ty.mac m => by simp [tyBEq]

theorem tyListBEq_refl : ∀ ts, tyListBEq ts ts = true
  | [] => by simp [tyListBEq]
  | t :: ts => by simp [tyListBEq, tyBEq_refl t, tyListBEq_refl ts]

theorem qselfOptBEq_refl : ∀ q, qselfOptBEq q q = true
  | none => by simp [qselfOptBEq]
  | some (TQSelf.mk t p) => by simp [qselfOptBEq, tyBEq_refl t]

theorem synPathBEq_refl : ∀ p, synPathBEq p p = true
  | SynPath.mk g segs => by simp [synPathBEq, segListBEq_refl segs]

theorem segListBEq_refl : ∀ segs, segListBEq segs segs = true
  | [] => by simp [segListBEq]
  | s :: segs => by simp [segListBEq, segBEq_refl s, segListBEq_refl segs]

theorem segBEq_refl : ∀ s, segBEq s s = true
  | PathSegment.mk i params => by simp [segBEq, paramsBEq_refl params]

theorem paramsBEq_refl : ∀ ps, paramsBEq ps ps = true
  | PathParameters.angleBracketed lts tys bs => by
      simp [paramsBEq, tyListBEq_refl tys, bindingsBEq_refl bs]
  | PathParameters.parenthesized ins outp => by
      simp [paramsBEq, tyListBEq_refl ins, tyOptBEq_refl outp]

theorem bindingsBEq_refl : ∀ bs, bindingsBEq bs bs = true
  | [] => by simp [bindingsBEq]
  | TypeBinding.mk i t :: bs => by
      simp [bindingsBEq, tyBEq_refl t, bindingsBEq_refl bs]

theorem tyOptBEq_refl : ∀ ot, tyOptBEq ot ot = true
  | none => by simp [tyOptBEq]
  | some t => by simp [tyOptBEq, tyBEq_refl t]

theorem bareFnArgsBEq_refl : ∀ as_, bareFnArgsBEq as_ as_ = true
  | [] => by simp [bareFnArgsBEq]
  | BareFnArg.mk n t :: rest => by
      simp [bareFnArgsBEq, tyBEq_refl t, bareFnArgsBEq_refl rest]

theorem retTyBEq_refl : ∀ r, retTyBEq r r = true
  | FunctionRetTy.default => by simp [retTyBEq]
  | FunctionRetTy.ty t => by simp [retTyBEq, tyBEq_refl t]

end

/-- Inserting a key into the registry makes it found by lookup. -/
theorem lookupPath_insertPath (m : List (SynPath × Item)) (k : SynPath)
    (v : Item) : lookupPath (insertPath m k v) k = some v := by
  induction m with
  | nil => simp [insertPath, lookupPath, synPathBEq_refl k]
  | cons h t ih =>
      obtain ⟨k', v'⟩ := h
      by_cases hk : synPathBEq k' k = true
      · simp [insertPath, hk, lookupPath, synPathBEq_refl k]
      · simp [insertPath, hk, lookupPath, ih]

/-- Ref-map lookup of a key mapped to itself. -/
theorem lookupRef_self (k : SynPath) :
    lookupRef [(k, k)] k = some k := by
  simp [lookupRef, synPathBEq_refl k]

/-- C6 counterexample: the claim's traversal, which does not list
parenthesized types among the recursion sites and leaves "all other
constructs unchanged", disagrees with the source's `qualify_self` on the
input `(Self)`: the source rewrites beneath the parentheses. -/
theorem c6_counterexample :
    qualify_self c6Input c6TraitPath ≠ qualifySelfClaim c6Input c6TraitPath :=
  fun h => absurd (congrArg parenUnqualObs h) (by decide)

/-- C6 (amended): `qualify_self` maps every type expression to an equal
type except that each path whose head segment is an unqualified `Self` is
rewritten to the qualified form (QSelf over the trait path with the
remaining segments appended), and the traversal recurses through slices,
arrays, raw and borrowed references, function-pointer types, tuples, path
type arguments, and parenthesized types, leaving all other constructs
unchanged. -/
theorem c6_qualify_self_matches_amended_claim (ty : Ty) (traitPath : SynPath) :
    qualify_self ty traitPath = qualifySelfClaimAmended ty traitPath :=
  process_ty_claim (qualifySelfFunc traitPath) ty

/- ------------------------------------------------------------------ -/
/- Registration-table lemmas (claims C4 and C5).                       -/
/- ------------------------------------------------------------------ -/


theorem tableContains_insert_iff (t : ExternMocksTable) (mid v k : Nat) :
    tableContains (tableInsert t mid v) k = true
      ↔ (k = mid ∨ tableContains t k = true) := by
  induction t with
  | nil =>
      simp only [tableInsert, tableContains, Bool.or_eq_true, beq_iff_eq,
        Bool.false_eq_true, or_false]
      omega
  | cons hd rest ih =>
      obtain ⟨k0, v0⟩ := hd
      by_cases h0 : k0 = mid
      · subst h0
        simp only [tableInsert, beq_self_eq_true, if_true, tableContains,
          Bool.or_eq_true, beq_iff_eq]
        by_cases hk : k0 = k
        · simp [hk]
        · simp [hk]
          tauto
      · have h0' : (k0 == mid) = false := by simp [h0]
        simp only [tableInsert, h0', Bool.false_eq_true, if_false,
          tableContains, Bool.or_eq_true, beq_iff_eq, ih]
        tauto

theorem tableLookup_insert_of_ne (t : ExternMocksTable) (mid v k : Nat)
    (hne : k ≠ mid) :
    tableLookup (tableInsert t mid v) k = tableLookup t k := by
  have hne' : (mid == k) = false := by simp; omega
  induction t with
  | nil => simp [tableInsert, tableLookup, hne']
  | cons hd rest ih =>
      obtain ⟨k0, v0⟩ := hd
      by_cases h0 : k0 = mid
      · subst h0
        simp [tableInsert, tableLookup, hne']
      · have h0' : (k0 == mid) = false := by simp [h0]
        simp [tableInsert, h0', tableLookup, ih]

theorem runRegisterStatics_error_of_present (name : String) (instId : Nat) :
    ∀ (ids : List Nat) (table : ExternMocksTable) (mid : Nat), mid ∈ ids →
      tableContains table mid = true →
      ∃ e, runRegisterStatics name instId ids table = Except.error e := by
  intro ids
  induction ids with
  | nil => intro _ mid h; simp at h
  | cons a rest ih =>
      intro table mid hmem hpresent
      by_cases ha : tableContains table a = true
      · exact ⟨"Mock " ++ name ++ " for static methods already exists",
          by simp [runRegisterStatics, ha]⟩
      · have hne : mid ≠ a := by
          intro h; rw [h] at hpresent; exact ha hpresent
        have hmem' : mid ∈ rest := by
          rcases List.mem_cons.mp hmem with h | h
          · exact absurd h hne
          · exact h
        have hpres' : tableContains (tableInsert table a instId) mid = true :=
          (tableContains_insert_iff table a instId mid).mpr (Or.inr hpresent)
        obtain ⟨e, he⟩ := ih (tableInsert table a instId) mid hmem' hpres'
        refine ⟨e, ?_⟩
        simp only [runRegisterStatics, ha, Bool.false_eq_true, if_false]
        exact he

theorem runRegisterStatics_ok (name : String) (instId : Nat) :
    ∀ (ids : List Nat) (table t' : ExternMocksTable),
      runRegisterStatics name instId ids table = Except.ok t' →
      (∀ mid ∈ ids, tableContains table mid = false)
        ∧ (∀ k, tableContains table k = true →
            tableLookup t' k = tableLookup table k) := by
  intro ids
  induction ids with
  | nil =>
      intro table t' h
      simp only [runRegisterStatics, Except.ok.injEq] at h
      subst h
      exact ⟨by simp, fun k _ => rfl⟩
  | cons a rest ih =>
      intro table t' h
      by_cases ha : tableContains table a = true
      · simp [runRegisterStatics, ha] at h
      · simp only [runRegisterStatics, ha, Bool.false_eq_true, if_false] at h
        obtain ⟨habs, hpres⟩ := ih (tableInsert table a instId) t' h
        constructor
        · intro mid hmem
          rcases List.mem_cons.mp hmem with hm | hm
          · rw [hm]; exact Bool.eq_false_iff.mpr (fun hh => ha hh)
          · by_contra hc
            have hc' : tableContains table mid = true := by
              rcases Bool.eq_false_or_eq_true (tableContains table mid) with h' | h'
              · exact h'
              · exact absurd h' hc
            have hc2 : tableContains (tableInsert table a instId) mid = true :=
              (tableContains_insert_iff table a instId mid).mpr (Or.inr hc')
            rw [habs mid hm] at hc2
            exact Bool.false_ne_true hc2
        · intro k hk
          have hkne : k ≠ a := by
            intro hh; rw [hh] at hk; exact ha hk
          have h1 : tableLookup t' k
              = tableLookup (tableInsert table a instId) k :=
            hpres k ((tableContains_insert_iff table a instId k).mpr (Or.inr hk))
          rw [h1, tableLookup_insert_of_ne table a instId k hkne]

theorem runRegisterExtern_error_of_present (name : String)
    (instId mid : Nat) (table : ExternMocksTable)
    (h : tableContains table mid = true) :
    ∃ e, runRegisterExtern name instId mid table = Except.error e :=
  ⟨"Mock " ++ name ++ " for extern block already exists",
    by simp [runRegisterExtern, h]⟩

theorem runRegisterExtern_ok (name : String) (instId mid : Nat)
    (table t' : ExternMocksTable)
    (h : runRegisterExtern name instId mid table = Except.ok t') :
    tableContains table mid = false
      ∧ (∀ k, tableContains table k = true →
          tableLookup t' k = tableLookup table k) := by
  by_cases hm : tableContains table mid = true
  · simp [runRegisterExtern, hm] at h
  · simp only [runRegisterExtern, hm, Bool.false_eq_true, if_false,
      Except.ok.injEq] at h
    subst h
    refine ⟨Bool.eq_false_iff.mpr (fun hh => hm hh), fun k hk => ?_⟩
    have hkne : k ≠ mid := by
      intro hh; rw [hh] at hk; exact hm hk
    exact tableLookup_insert_of_ne table mid instId k hkne


theorem generate_extern_mock_registers (fi : List ForeignItem) (mi : String)
    (c c' : Nat) (items : List GenItem)
    (h : generate_extern_mock fi mi c = (Except.ok items, c')) :
    GenItem.externMockImplBlock
        ⟨mi, [], mi, InitCode.registerExternBlock c mi⟩ ∈ items := by
  cases hp : processForeignItems c fi with
  | error e => simp [generate_extern_mock, hp] at h
  | ok r =>
      obtain ⟨ms, ss⟩ := r
      simp only [generate_extern_mock, hp, Prod.mk.injEq, Except.ok.injEq] at h
      rw [← h.1]
      simp

theorem processTraits_mockImpl_init (mi : String) (ats : List String)
    (g : List TyParam) (sp : SynPath) :
    ∀ (ts : List (SynPath × List TraitItem)) (c : Nat) (ids : List Nat)
      (items : List GenItem) (idsF : List Nat) (hs : Bool) (c' : Nat),
      processTraits mi ats g sp ts c ids = (Except.ok (items, idsF, hs), c') →
      ∀ m, GenItem.mockImplBlock m ∈ items →
        ∃ ids0 nm, m.init = InitCode.registerStatics ids0 nm := by
  intro ts
  induction ts with
  | nil =>
      intro c ids items idsF hs c' h m hm
      simp only [processTraits, Prod.mk.injEq, Except.ok.injEq] at h
      rw [← h.1.1] at hm
      simp at hm
  | cons tr rest ih =>
      intro c ids items idsF hs c' h m hm
      obtain ⟨traitPath, members⟩ := tr
      cases hp : processMembers traitPath sp c members with
      | error e => simp [processTraits, hp] at h
      | ok r =>
          obtain ⟨im, tim, sim, stim⟩ := r
          cases hrec : processTraits mi ats g sp rest (c + 1) (ids ++ [c]) with
          | mk res cF =>
              cases res with
              | error e => simp [processTraits, hp, hrec] at h
              | ok r2 =>
                  obtain ⟨items2, ids2, hs2⟩ := r2
                  simp only [processTraits, hp, hrec, Prod.mk.injEq,
                    Except.ok.injEq] at h
                  rw [← h.1.1] at hm
                  simp only [List.mem_append] at hm
                  rcases hm with (hm | hm) | hm
                  · simp at hm
                  · by_cases hsim : sim.isEmpty
                    · simp [hsim] at hm
                    · simp only [hsim, Bool.false_eq_true, if_false] at hm
                      simp only [List.mem_cons, List.not_mem_nil] at hm
                      rcases hm with hm | hm | hm
                      · cases hm
                      · cases hm
                      · rcases hm with hm | hm
                        · cases hm
                          exact ⟨ids ++ [c], mi ++ "Static", rfl⟩
                        · cases hm
                  · exact ih (c + 1) (ids ++ [c]) items2 ids2 hs2 cF
                      (by rw [hrec, h.2]) m hm

theorem generate_mock_for_traits_mockImpl_init (mi : String)
    (tis : List TraitDesc) (isLocal : Bool) (c : Nat) (out : MockGenOutput)
    (c' : Nat) (h : generate_mock_for_traits mi tis isLocal c = (Except.ok out, c'))
    (m : MockImpl) (hm : GenItem.mockImplBlock m ∈ out.items) :
    m.init = InitCode.empty
      ∨ ∃ ids0 nm, m.init = InitCode.registerStatics ids0 nm := by
  cases hv : validateTraits [] tis with
  | error e => simp [generate_mock_for_traits, hv] at h
  | ok traits =>
      cases hg : gatherAssocTypes traits with
      | error e => simp [generate_mock_for_traits, hv, hg] at h
      | ok assocTypes =>
          cases hpt : processTraits mi assocTypes (mkImplGenerics assocTypes)
              (mkStructPath mi assocTypes) traits c [] with
          | mk res cF =>
              cases res with
              | error e =>
                  simp [generate_mock_for_traits, hv, hg, hpt] at h
              | ok r =>
                  obtain ⟨loopItems, mockTypeIds, hasStatics⟩ := r
                  simp only [generate_mock_for_traits, hv, hg, hpt,
                    Prod.mk.injEq, Except.ok.injEq] at h
                  rw [← h.1] at hm
                  simp only [List.mem_cons, List.mem_append] at hm
                  rcases hm with ((hm | hm) | (hm | hm | hm)) | hm
                  · cases hm
                  · right
                    exact processTraits_mockImpl_init mi assocTypes
                      (mkImplGenerics assocTypes) (mkStructPath mi assocTypes)
                      traits c [] loopItems mockTypeIds hasStatics cF
                      (by rw [hpt, h.2]) m hm
                  · cases hm; left; rfl
                  · cases hm
                  · cases hm
                  · exfalso
                    by_cases hc : (isLocal && !hasGenericMethod traits
                        && !hasStatics) = true
                    · rw [if_pos hc] at hm
                      revert hm
                      rcases traits.getLast? with _ | ⟨tp, ms⟩ <;> intro hm <;>
                        simp at hm
                    · rw [if_neg hc] at hm
                      simp at hm


/-- C4: for every generated static mock, the constructor's registration
code panics when any of the mock type ids it is about to register is
already present in the thread-scoped table; on success every registered id
was previously absent and no existing entry is overwritten; the trait-loop
mock impls carry exactly this checked loop (or no init code at all, for
the instance mock) and the extern mock impl carries the single-id
variant. -/
theorem c4_registration_aborts_on_duplicate :
    (∀ (name : String) (instId : Nat) (ids : List Nat)
        (table : ExternMocksTable) (mid : Nat), mid ∈ ids →
        tableContains table mid = true →
        ∃ e, runRegisterStatics name instId ids table = Except.error e)
    ∧ (∀ (name : String) (instId : Nat) (ids : List Nat)
        (table t' : ExternMocksTable),
        runRegisterStatics name instId ids table = Except.ok t' →
        (∀ mid ∈ ids, tableContains table mid = false)
          ∧ (∀ k, tableContains table k = true →
              tableLookup t' k = tableLookup table k))
    ∧ (∀ (name : String) (instId mid : Nat) (table : ExternMocksTable),
        tableContains table mid = true →
        ∃ e, runRegisterExtern name instId mid table = Except.error e)
    ∧ (∀ (name : String) (instId mid : Nat) (table t' : ExternMocksTable),
        runRegisterExtern name instId mid table = Except.ok t' →
        tableContains table mid = false
          ∧ (∀ k, tableContains table k = true →
              tableLookup t' k = tableLookup table k))
    ∧ (∀ (fi : List ForeignItem) (mi : String) (c c' : Nat)
        (items : List GenItem),
        generate_extern_mock fi mi c = (Except.ok items, c') →
        GenItem.externMockImplBlock
            ⟨mi, [], mi, InitCode.registerExternBlock c mi⟩ ∈ items)
    ∧ (∀ (mi : String) (tis : List TraitDesc) (isLocal : Bool) (c : Nat)
        (out : MockGenOutput) (c' : Nat),
        generate_mock_for_traits mi tis isLocal c = (Except.ok out, c') →
        ∀ m, GenItem.mockImplBlock m ∈ out.items →
          m.init = InitCode.empty
            ∨ ∃ ids0 nm, m.init = InitCode.registerStatics ids0 nm) :=
  ⟨fun name instId => runRegisterStatics_error_of_present name instId,
   fun name instId => runRegisterStatics_ok name instId,
   runRegisterExtern_error_of_present,
   runRegisterExtern_ok,
   generate_extern_mock_registers,
   generate_mock_for_traits_mockImpl_init⟩

/-- C4 witness: registering id 5 into a table already holding id 5 errors,
for both the trait-based loop and the extern-block constructor. -/
theorem c4_witness :
    ((5 ∈ [5]) ∧ tableContains [(5, 0)] 5 = true
      ∧ ∃ e, runRegisterStatics "FooMockStatic" 1 [5] [(5, 0)]
          = Except.error e)
    ∧ (tableContains [(5, 0)] 5 = true
      ∧ ∃ e, runRegisterExtern "FooMock" 1 5 [(5, 0)] = Except.error e) :=
  ⟨⟨by decide, by decide,
    c4_registration_aborts_on_duplicate.1 "FooMockStatic" 1 [5] [(5, 0)] 5
      (by decide) (by decide)⟩,
   ⟨by decide,
    c4_registration_aborts_on_duplicate.2.2.1 "FooMock" 1 5 [(5, 0)]
      (by decide)⟩⟩

/- ------------------------------------------------------------------ -/
/- Claim C5.                                                           -/
/- ------------------------------------------------------------------ -/

/-- C5: the extern-block mock gets a `Drop` impl that removes its
InterfaceId from the thread-scoped table (and removal really clears the
entry), but the trait-based static mock generated for `Factory` — whose
constructor does register its InterfaceId — gets no `Drop` impl at all:
its registration is never removed on destruction.  This contradicts the
spec's requirement that destruction of every static mock deregister its
entries. -/
theorem c5_trait_static_mock_lacks_drop :
    ((generate_extern_mock [externFoo] "FooMock" 5).1 = Except.ok externFooItems
      ∧ dropIds externFooItems = [5]
      ∧ tableLookup (runExternDrop 5 [(5, 1)]) 5 = none)
    ∧ ((generate_mock_for_traits "FactoryMock" [⟨emptyModPath, factoryItem⟩]
          true 7).1 = Except.ok factoryGenOut
      ∧ factoryGenOut.hasStaticMethods = true
      ∧ factoryGenOut.items.any isDropItem = false) :=
  ⟨⟨rfl, rfl, rfl⟩, ⟨rfl, rfl, rfl⟩⟩


theorem capturedNames_spec :
    ∀ (args : List FnArg) (ns : List String), capturedNames args = some ns →
      args.filterMap capturedIdentOf = ns ∧ ns.length = args.length := by
  intro args
  induction args with
  | nil => intro ns h; simp [capturedNames] at h; subst h; simp
  | cons a rest ih =>
      intro ns h
      match a, h with
      | FnArg.captured (Pat.identPat bm n sub) ty, h =>
          cases hr : capturedNames rest with
          | none => simp [capturedNames, hr] at h
          | some ns' =>
              simp only [capturedNames, hr, Option.map_some'] at h
              obtain ⟨h1, h2⟩ := ih ns' hr
              cases h
              constructor
              · simp [List.filterMap_cons, capturedIdentOf, h1]
              · simp [h2]

theorem capturedNames_map_qualifyArg (tp : SynPath) :
    ∀ (args : List FnArg),
      capturedNames (args.map (qualifyArg tp)) = capturedNames args := by
  intro args
  induction args with
  | nil => rfl
  | cons a rest ih =>
      cases a with
      | selfRef lt m => simp [qualifyArg, capturedNames]
      | selfValue m => simp [qualifyArg, capturedNames]
      | captured pat ty =>
          cases pat with
          | identPat bm n sub => simp [qualifyArg, capturedNames, ih]
          | wild => simp [qualifyArg, capturedNames]
          | otherPat d => simp [qualifyArg, capturedNames]
      | ignored ty => simp [qualifyArg, capturedNames]

theorem tyIsRptr_qualify (tp : SynPath) (ty : Ty) :
    (match qualify_self ty tp with
     | Ty.rptr _ _ _ => true
     | _ => false)
      = (match ty with
         | Ty.rptr _ _ _ => true
         | _ => false) := by
  cases ty with
  | rptr lt m t => rfl
  | path q p =>
      cases q with
      | some qs => rfl
      | none =>
          cases p with
          | mk g segs =>
              cases segs with
              | nil => rfl
              | cons s rest =>
                  show (match process_ty (qualifySelfFunc tp)
                      (Ty.path none (SynPath.mk g (s :: rest))) with
                    | Ty.rptr _ _ _ => true
                    | _ => false) = false
                  rw [process_ty]
                  by_cases h : s.segIdent = "Self"
                  · rw [if_pos h]; rfl
                  · rw [if_neg h]
  | slice t => rfl
  | array t n => rfl
  | ptr m t => rfl
  | bareFn a b c d e f => rfl
  | never => rfl
  | tup ts => rfl
  | traitObject b => rfl
  | implTrait b => rfl
  | paren t => rfl
  | infer => rfl
  | mac m => rfl

theorem argIsRef_qualifyArg (tp : SynPath) (a : FnArg) :
    argIsRef (qualifyArg tp a) = argIsRef a := by
  cases a with
  | selfRef lt m => rfl
  | selfValue m => rfl
  | ignored ty => rfl
  | captured pat ty =>
      show argIsRef (FnArg.captured pat (qualify_self ty tp)) = _
      have := tyIsRptr_qualify tp ty
      simp only [argIsRef]
      cases hq : qualify_self ty tp <;> cases ty <;> simp_all [argIsRef]

theorem refIndicesFrom_map_qualifyArg (tp : SynPath) :
    ∀ (args : List FnArg) (i : Nat),
      refIndicesFrom i (args.map (qualifyArg tp)) = refIndicesFrom i args := by
  intro args
  induction args with
  | nil => intro i; rfl
  | cons a rest ih =>
      intro i
      simp only [List.map_cons, refIndicesFrom, argIsRef_qualifyArg tp a, ih]


theorem implMethodArgs_spec :
    ∀ (args : List FnArg) (i : Nat) (ns : List String),
      capturedNames args = some ns →
      ∃ specs, implMethodArgs i args = Except.ok specs
        ∧ specs.length = args.length
        ∧ specs.map (fun s => (s.argIdent, s.argTypeIdent))
            = (List.range' i args.length).map
                (fun j => ("arg" ++ Nat.repr j, "Arg" ++ Nat.repr j ++ "Match"))
        ∧ specs.filterMap (fun s => s.lifetime)
            = (refIndicesFrom i args).map (fun j => "'a" ++ Nat.repr j) := by
  intro args
  induction args with
  | nil =>
      intro i ns _
      refine ⟨[], ?_, ?_, ?_, ?_⟩ <;> simp [implMethodArgs, refIndicesFrom]
  | cons a rest ih =>
      intro i ns h
      match a, h with
      | FnArg.captured (Pat.identPat bm n sub) ty, h =>
          cases hr : capturedNames rest with
          | none => simp [capturedNames, hr] at h
          | some ns' =>
              obtain ⟨specs, hspecs, hlen, hpairs, hlts⟩ := ih (i + 1) ns' hr
              refine ⟨implMethodArg i ty :: specs, ?_, ?_, ?_, ?_⟩
              · simp only [implMethodArgs, hspecs]
                rfl
              · simp [hlen]
              · simp only [List.length_cons, List.range'_succ, List.map_cons,
                  hpairs, List.cons.injEq, and_true]
                cases ty <;> rfl
              · cases ty <;>
                  simp [List.filterMap_cons, implMethodArg, refIndicesFrom,
                    argIsRef, hlts]

theorem generate_stub_code_eq (mockTypeId : Nat) (methodIdent : String)
    (generics : Generics) (selfArg : FnArg) (getInfo : GetInfoExpr)
    (args : List FnArg) (returnType : Ty) (u : Bool) (ns : List String)
    (hnames : capturedNames args = some ns) :
    generate_stub_code mockTypeId methodIdent generics (some selfArg) getInfo
        args returnType u
      = Except.ok
          { declaredUnsafe := u, name := methodIdent, generics := generics,
            params := selfArg :: args.map stubRebindArg,
            returnType := returnType, getInfo := getInfo,
            mockTypeId := mockTypeId, methodName := methodIdent,
            verifyFn := "verify" ++ Nat.repr args.length, argValues := ns } := by
  obtain ⟨h1, h2⟩ := capturedNames_spec args ns hnames
  simp [generate_stub_code, h1, h2]

theorem generate_stub_code_eq_noself (mockTypeId : Nat) (methodIdent : String)
    (generics : Generics) (getInfo : GetInfoExpr)
    (args : List FnArg) (returnType : Ty) (u : Bool) (ns : List String)
    (hnames : capturedNames args = some ns) :
    generate_stub_code mockTypeId methodIdent generics none getInfo
        args returnType u
      = Except.ok
          { declaredUnsafe := u, name := methodIdent, generics := generics,
            params := args.map stubRebindArg,
            returnType := returnType, getInfo := getInfo,
            mockTypeId := mockTypeId, methodName := methodIdent,
            verifyFn := "verify" ++ Nat.repr args.length, argValues := ns } := by
  obtain ⟨h1, h2⟩ := capturedNames_spec args ns hnames
  simp [generate_stub_code, h1, h2]

theorem generate_impl_method_eq (mockTypeId : Nat) (methodIdent : String)
    (generics : Generics) (args : List FnArg) (returnType : Ty)
    (specs : List ArgSpec)
    (hspecs : implMethodArgs 0 args = Except.ok specs) :
    generate_impl_method mockTypeId methodIdent generics args returnType
      = Except.ok
          { name := methodIdent ++ "_call",
            genericParams :=
              (specs.filterMap (fun s => s.lifetime)).map
                  GenericParam.lifetimeParam
                ++ generics.ty_params.map
                    (fun p => GenericParam.tyParam
                      { p with bounds := p.bounds ++ [debugBound] })
                ++ specs.map
                    (fun s => GenericParam.matcher s.argTypeIdent s.newArgType),
            inputs := specs.map (fun s => (s.argIdent, s.argTypeIdent)),
            output := ("CallMatch" ++ Nat.repr args.length,
                       specs.map (fun s => s.newArgType) ++ [returnType]),
            newArgs := [CallArg.selfMockId, CallArg.typeId mockTypeId,
                        CallArg.nameLit methodIdent]
                ++ specs.map (fun s => CallArg.boxed s.argIdent) } := by
  simp only [generate_impl_method, hspecs]
  rfl

theorem methodIsStatic_false_of_self (decl : FnDecl) (selfArg : FnArg)
    (args : List FnArg) (hinputs : decl.inputs = selfArg :: args)
    (hself : isSelfReceiver selfArg = true) :
    methodIsStatic decl = false := by
  rw [methodIsStatic, hinputs]
  cases selfArg <;> simp_all [isSelfReceiver]

theorem generate_trait_methods_instance
    (methodIdent : String) (decl : FnDecl) (generics : Generics)
    (traitPath : SynPath) (mockTypeId : Nat) (structPath : SynPath)
    (selfArg : FnArg) (args : List FnArg) (ns : List String)
    (specs : List ArgSpec)
    (hinputs : decl.inputs = selfArg :: args)
    (hself : isSelfReceiver selfArg = true)
    (hnames : capturedNames args = some ns)
    (hspecs : implMethodArgs 0 (args.map (qualifyArg traitPath))
        = Except.ok specs) :
    generate_trait_methods methodIdent decl generics traitPath mockTypeId
        structPath
      = Except.ok
          { is_static := false,
            trait_impl_method :=
              { declaredUnsafe := false, name := methodIdent,
                generics := generics,
                params := selfArg :: args.map stubRebindArg,
                returnType := declReturnType decl,
                getInfo := GetInfoExpr.selfInfo, mockTypeId := mockTypeId,
                methodName := methodIdent,
                verifyFn := "verify" ++ Nat.repr args.length,
                argValues := ns },
            impl_method :=
              { name := methodIdent ++ "_call",
                genericParams :=
                  (specs.filterMap (fun s => s.lifetime)).map
                      GenericParam.lifetimeParam
                    ++ generics.ty_params.map
                        (fun p => GenericParam.tyParam
                          { p with bounds := p.bounds ++ [debugBound] })
                    ++ specs.map
                        (fun s =>
                          GenericParam.matcher s.argTypeIdent s.newArgType),
                inputs := specs.map (fun s => (s.argIdent, s.argTypeIdent)),
                output := ("CallMatch" ++ Nat.repr args.length,
                           specs.map (fun s => s.newArgType)
                             ++ [qualify_self (declReturnType decl) traitPath]),
                newArgs := [CallArg.selfMockId, CallArg.typeId mockTypeId,
                            CallArg.nameLit methodIdent]
                    ++ specs.map (fun s => CallArg.boxed s.argIdent) } } := by
  have hstatic := methodIsStatic_false_of_self decl selfArg args hinputs hself
  have hns' : capturedNames (args.map (qualifyArg traitPath)) = some ns := by
    rw [capturedNames_map_qualifyArg traitPath args, hnames]
  have hstub := generate_stub_code_eq mockTypeId methodIdent generics selfArg
    GetInfoExpr.selfInfo args (declReturnType decl) false ns hnames
  have himpl := generate_impl_method_eq mockTypeId methodIdent generics
    (args.map (qualifyArg traitPath))
    (qualify_self (declReturnType decl) traitPath) specs hspecs
  rw [List.length_map] at himpl
  simp only [generate_trait_methods, hstatic, Bool.false_eq_true, if_false,
    hinputs]
  simp only [generate_trait_impl_method, generate_impl_method_for_trait,
    hstub, himpl]


theorem refIndicesFrom_length :
    ∀ (args : List FnArg) (i : Nat),
      (refIndicesFrom i args).length = args.countP argIsRef := by
  intro args
  induction args with
  | nil => intro i; rfl
  | cons a rest ih =>
      intro i
      by_cases h : argIsRef a = true
      · simp [refIndicesFrom, h, List.countP_cons, ih]
      · simp [refIndicesFrom, h, List.countP_cons, ih]

theorem refIndicesFrom_lb :
    ∀ (args : List FnArg) (i j : Nat), j ∈ refIndicesFrom i args → i ≤ j := by
  intro args
  induction args with
  | nil => intro i j h; simp [refIndicesFrom] at h
  | cons a rest ih =>
      intro i j h
      by_cases ha : argIsRef a = true
      · simp only [refIndicesFrom, ha, if_true, List.mem_cons] at h
        rcases h with h | h
        · omega
        · have := ih (i + 1) j h; omega
      · simp only [refIndicesFrom, ha, Bool.false_eq_true, if_false] at h
        have := ih (i + 1) j h; omega

theorem refIndicesFrom_nodup :
    ∀ (args : List FnArg) (i : Nat), (refIndicesFrom i args).Nodup := by
  intro args
  induction args with
  | nil => intro i; simp [refIndicesFrom]
  | cons a rest ih =>
      intro i
      by_cases ha : argIsRef a = true
      · simp only [refIndicesFrom, ha, if_true, List.nodup_cons]
        refine ⟨fun hmem => ?_, ih (i + 1)⟩
        have := refIndicesFrom_lb rest (i + 1) i hmem
        omega
      · simp only [refIndicesFrom, ha, Bool.false_eq_true, if_false]
        exact ih (i + 1)

theorem lifetimeNames_append :
    ∀ (xs ys : List GenericParam),
      lifetimeNames (xs ++ ys) = lifetimeNames xs ++ lifetimeNames ys := by
  intro xs ys
  induction xs with
  | nil => rfl
  | cons g rest ih => cases g <;> simp [lifetimeNames, ih]

theorem lifetimeNames_map_lifetimeParam (l : List String) :
    lifetimeNames (l.map GenericParam.lifetimeParam) = l := by
  induction l with
  | nil => rfl
  | cons x xs ih => simp [lifetimeNames, ih]

theorem lifetimeNames_map_tyParam (l : List TyParam) (f : TyParam → TyParam) :
    lifetimeNames (l.map (fun p => GenericParam.tyParam (f p))) = [] := by
  induction l with
  | nil => rfl
  | cons x xs ih => simp [lifetimeNames, ih]

theorem lifetimeNames_map_matcher (l : List ArgSpec) :
    lifetimeNames
        (l.map (fun s => GenericParam.matcher s.argTypeIdent s.newArgType))
      = [] := by
  induction l with
  | nil => rfl
  | cons x xs ih => simp [lifetimeNames, ih]

theorem argNameTy_stubRebind (a : FnArg) :
    argNameTy (stubRebindArg a) = argNameTy a := by
  cases a with
  | captured pat ty => cases pat <;> rfl
  | selfRef lt m => rfl
  | selfValue m => rfl
  | ignored ty => rfl

theorem map_argNameTy_stubRebind :
    ∀ (args : List FnArg),
      (args.map stubRebindArg).map argNameTy = args.map argNameTy := by
  intro args
  induction args with
  | nil => rfl
  | cons a rest ih => simp [argNameTy_stubRebind a, ih]

/-- C2: for a supported instance method with N non-receiver parameters,
the forwarding implementation calls `verifyN` with the descriptor
(mock type id, stringified method name; the instance id is read through
`(self.mock_id, &self.scenario)`) and the N declared argument names
positionally, and the builder is named `<method>_call`, takes one matcher
parameter per argument, and returns `CallMatchN` parameterized by the N
argument types followed by the (Self-qualified) return type. -/
theorem c2_forwarding_and_builder (methodIdent : String) (decl : FnDecl)
    (generics : Generics) (traitPath : SynPath) (mockTypeId : Nat)
    (structPath : SynPath) (selfArg : FnArg) (args : List FnArg)
    (ns : List String) (gm : GeneratedMethods)
    (hinputs : decl.inputs = selfArg :: args)
    (hself : isSelfReceiver selfArg = true)
    (hnames : capturedNames args = some ns)
    (hgen : generate_trait_methods methodIdent decl generics traitPath
        mockTypeId structPath = Except.ok gm) :
    gm.is_static = false
    ∧ gm.trait_impl_method.verifyFn = "verify" ++ Nat.repr args.length
    ∧ gm.trait_impl_method.argValues = ns
    ∧ ns.length = args.length
    ∧ gm.trait_impl_method.mockTypeId = mockTypeId
    ∧ gm.trait_impl_method.methodName = methodIdent
    ∧ gm.trait_impl_method.getInfo = GetInfoExpr.selfInfo
    ∧ gm.impl_method.name = methodIdent ++ "_call"
    ∧ gm.impl_method.inputs
        = (List.range' 0 args.length).map
            (fun j => ("arg" ++ Nat.repr j, "Arg" ++ Nat.repr j ++ "Match"))
    ∧ gm.impl_method.output.1 = "CallMatch" ++ Nat.repr args.length
    ∧ gm.impl_method.output.2.length = args.length + 1
    ∧ gm.impl_method.output.2.getLast?
        = some (qualify_self (declReturnType decl) traitPath)
    ∧ gm.impl_method.newArgs
        = [CallArg.selfMockId, CallArg.typeId mockTypeId,
           CallArg.nameLit methodIdent]
          ++ (List.range' 0 args.length).map
              (fun j => CallArg.boxed ("arg" ++ Nat.repr j)) := by
  have hns' : capturedNames (args.map (qualifyArg traitPath)) = some ns := by
    rw [capturedNames_map_qualifyArg traitPath args]; exact hnames
  obtain ⟨specs, hspecs, hlen, hpairs, hlts⟩ :=
    implMethodArgs_spec (args.map (qualifyArg traitPath)) 0 ns hns'
  rw [List.length_map] at hlen hpairs
  have heq := generate_trait_methods_instance methodIdent decl generics
    traitPath mockTypeId structPath selfArg args ns specs hinputs hself
    hnames hspecs
  rw [heq, Except.ok.injEq] at hgen
  subst hgen
  obtain ⟨h1, h2⟩ := capturedNames_spec args ns hnames
  refine ⟨rfl, rfl, rfl, h2, rfl, rfl, rfl, rfl, hpairs, rfl, ?_, ?_, ?_⟩
  · simp [hlen]
  · exact List.getLast?_concat _
  · have hb := congrArg (List.map (fun p : String × String => CallArg.boxed p.1))
      hpairs
    simp only [List.map_map] at hb
    have hb' : specs.map (fun s => CallArg.boxed s.argIdent)
        = (List.range' 0 args.length).map
            (fun j => CallArg.boxed ("arg" ++ Nat.repr j)) := hb
    show _ ++ specs.map (fun s => CallArg.boxed s.argIdent) = _
    rw [hb']


/-- C2 witness: the Greeter round trip.  `greet` forwards through
`verify1` tagged `"greet"`, and `greet_call` takes one matcher and returns
`CallMatch1<String, String>`. -/
theorem c2_witness :
    greetDecl.inputs = selfRefArg :: [capturedArg "name" tyString]
    ∧ isSelfReceiver selfRefArg = true
    ∧ capturedNames [capturedArg "name" tyString] = some ["name"]
    ∧ generate_trait_methods "greet" greetDecl Generics.empty greeterTraitPath
        0 greeterStructPath = Except.ok greetGm
    ∧ greetGm.is_static = false
    ∧ greetGm.trait_impl_method.verifyFn = "verify1"
    ∧ greetGm.trait_impl_method.methodName = "greet"
    ∧ greetGm.trait_impl_method.argValues = ["name"]
    ∧ greetGm.impl_method.name = "greet_call"
    ∧ greetGm.impl_method.inputs = [("arg0", "Arg0Match")]
    ∧ greetGm.impl_method.output = ("CallMatch1", [tyString, tyString]) := by
  have h := c2_forwarding_and_builder "greet" greetDecl Generics.empty
    greeterTraitPath 0 greeterStructPath selfRefArg
    [capturedArg "name" tyString] ["name"] greetGm rfl rfl rfl rfl
  exact ⟨rfl, rfl, rfl, rfl, h.1, by decide, h.2.2.2.2.2.1, h.2.2.1,
    h.2.2.2.2.2.2.2.1, by decide, rfl⟩

/-- C9: the builder's generic parameter list introduces exactly one fresh
lifetime per reference-typed parameter — the lifetimes are `'a{i}` for
exactly the reference argument positions `i`, pairwise distinct — and the
forwarding implementation's parameter list (names and types) is unchanged
from the declared signature. -/
theorem c9_fresh_lifetimes_params_unchanged (methodIdent : String)
    (decl : FnDecl) (generics : Generics) (traitPath : SynPath)
    (mockTypeId : Nat) (structPath : SynPath) (selfArg : FnArg)
    (args : List FnArg) (ns : List String) (gm : GeneratedMethods)
    (hinputs : decl.inputs = selfArg :: args)
    (hself : isSelfReceiver selfArg = true)
    (hnames : capturedNames args = some ns)
    (hgen : generate_trait_methods methodIdent decl generics traitPath
        mockTypeId structPath = Except.ok gm) :
    lifetimeNames gm.impl_method.genericParams
        = (refIndicesFrom 0 args).map (fun j => "'a" ++ Nat.repr j)
    ∧ (lifetimeNames gm.impl_method.genericParams).length
        = args.countP argIsRef
    ∧ (lifetimeNames gm.impl_method.genericParams).Nodup
    ∧ gm.trait_impl_method.params.map argNameTy
        = (selfArg :: args).map argNameTy
    ∧ gm.trait_impl_method.params.length = args.length + 1 := by
  have hns' : capturedNames (args.map (qualifyArg traitPath)) = some ns := by
    rw [capturedNames_map_qualifyArg traitPath args]; exact hnames
  obtain ⟨specs, hspecs, hlen, hpairs, hlts⟩ :=
    implMethodArgs_spec (args.map (qualifyArg traitPath)) 0 ns hns'
  rw [refIndicesFrom_map_qualifyArg traitPath args 0] at hlts
  have heq := generate_trait_methods_instance methodIdent decl generics
    traitPath mockTypeId structPath selfArg args ns specs hinputs hself
    hnames hspecs
  rw [heq, Except.ok.injEq] at hgen
  subst hgen
  have hlife : lifetimeNames
      ((specs.filterMap (fun s => s.lifetime)).map GenericParam.lifetimeParam
        ++ generics.ty_params.map
            (fun p => GenericParam.tyParam
              { p with bounds := p.bounds ++ [debugBound] })
        ++ specs.map
            (fun s => GenericParam.matcher s.argTypeIdent s.newArgType))
      = (refIndicesFrom 0 args).map (fun j => "'a" ++ Nat.repr j) := by
    rw [lifetimeNames_append, lifetimeNames_append,
      lifetimeNames_map_lifetimeParam,
      lifetimeNames_map_tyParam generics.ty_params
        (fun p => { p with bounds := p.bounds ++ [debugBound] }),
      lifetimeNames_map_matcher, hlts]
    simp
  refine ⟨hlife, ?_, ?_, ?_, ?_⟩
  · rw [hlife, List.length_map, refIndicesFrom_length]
  · rw [hlife]
    exact List.Nodup.map mkLifetime_injective (refIndicesFrom_nodup args 0)
  · show (selfArg :: args.map stubRebindArg).map argNameTy = _
    simp only [List.map_cons, map_argNameTy_stubRebind]
  · show (selfArg :: args.map stubRebindArg).length = _
    simp

/-- C9 witness: `fn refm(&self, a: &u32, b: u32, c: &u32)` gets exactly
the two fresh lifetimes `'a0` and `'a2` (distinct), and the forwarding
method keeps the declared names and types. -/
theorem c9_witness :
    refmDecl.inputs = selfRefArg
        :: [capturedArg "a" tyRefU32, capturedArg "b" tyU32,
            capturedArg "c" tyRefU32]
    ∧ isSelfReceiver selfRefArg = true
    ∧ capturedNames [capturedArg "a" tyRefU32, capturedArg "b" tyU32,
        capturedArg "c" tyRefU32] = some ["a", "b", "c"]
    ∧ generate_trait_methods "refm" refmDecl Generics.empty greeterTraitPath
        4 greeterStructPath = Except.ok refmGm
    ∧ lifetimeNames refmGm.impl_method.genericParams = ["'a0", "'a2"]
    ∧ (lifetimeNames refmGm.impl_method.genericParams).Nodup
    ∧ refmGm.trait_impl_method.params.map argNameTy
        = (selfRefArg
            :: [capturedArg "a" tyRefU32, capturedArg "b" tyU32,
                capturedArg "c" tyRefU32]).map argNameTy := by
  have h := c9_fresh_lifetimes_params_unchanged "refm" refmDecl Generics.empty
    greeterTraitPath 4 greeterStructPath selfRefArg
    [capturedArg "a" tyRefU32, capturedArg "b" tyU32, capturedArg "c" tyRefU32]
    ["a", "b", "c"] refmGm rfl rfl rfl rfl
  exact ⟨rfl, rfl, rfl, rfl, by decide, h.2.2.1, h.2.2.2.1⟩


theorem gatherAssocTypesMembers_eq :
    ∀ (ms : List TraitItem) (ats : List String),
      gatherAssocTypesMembers ms = Except.ok ats →
      ats = assocIdentsMembers ms := by
  intro ms
  induction ms with
  | nil => intro ats h; simp [gatherAssocTypesMembers] at h; simp [h, assocIdentsMembers]
  | cons m rest ih =>
      intro ats h
      cases hn : m.node with
      | typeItem bounds dflt =>
          by_cases hb : bounds.isEmpty
          · simp only [gatherAssocTypesMembers, hn, hb, Bool.not_true,
              Bool.false_eq_true, if_false] at h
            cases hr : gatherAssocTypesMembers rest with
            | error e => rw [hr] at h; cases h
            | ok ats' =>
                rw [hr] at h
                cases h
                simp [assocIdentsMembers, hn, ih ats' hr]
          · simp [gatherAssocTypesMembers, hn, hb] at h
      | method sig hasBody =>
          simp only [gatherAssocTypesMembers, hn] at h
          simp [assocIdentsMembers, hn, ih ats h]
      | constItem d =>
          simp only [gatherAssocTypesMembers, hn] at h
          simp [assocIdentsMembers, hn, ih ats h]
      | macItem d =>
          simp only [gatherAssocTypesMembers, hn] at h
          simp [assocIdentsMembers, hn, ih ats h]

theorem gatherAssocTypes_eq :
    ∀ (ts : List (SynPath × List TraitItem)) (ats : List String),
      gatherAssocTypes ts = Except.ok ats → ats = assocIdentsOf ts := by
  intro ts
  induction ts with
  | nil => intro ats h; simp [gatherAssocTypes] at h; simp [h, assocIdentsOf]
  | cons t rest ih =>
      intro ats h
      obtain ⟨p, ms⟩ := t
      cases hm : gatherAssocTypesMembers ms with
      | error e =>
          simp only [gatherAssocTypes, hm] at h
          exact Except.noConfusion
            (show (Except.error e : Except String (List String))
                = Except.ok ats from h)
      | ok as_ =>
          cases hr : gatherAssocTypes rest with
          | error e =>
              simp only [gatherAssocTypes, hm, hr] at h
              exact Except.noConfusion
                (show (Except.error e : Except String (List String))
                    = Except.ok ats from h)
          | ok bs =>
              simp only [gatherAssocTypes, hm, hr] at h
              have h' : Except.ok (as_ ++ bs) = Except.ok ats := h
              cases h'
              simp [assocIdentsOf, gatherAssocTypesMembers_eq ms as_ hm,
                ih bs hr]

theorem processTraits_ids (mi : String) (ats : List String)
    (g : List TyParam) (sp : SynPath) :
    ∀ (ts : List (SynPath × List TraitItem)) (c : Nat) (ids : List Nat)
      (items : List GenItem) (idsF : List Nat) (hs : Bool) (c' : Nat),
      processTraits mi ats g sp ts c ids = (Except.ok (items, idsF, hs), c') →
      idsF = ids ++ List.range' c ts.length ∧ c' = c + ts.length := by
  intro ts
  induction ts with
  | nil =>
      intro c ids items idsF hs c' h
      simp only [processTraits, Prod.mk.injEq, Except.ok.injEq] at h
      obtain ⟨⟨hitems, hids, hhs⟩, hc⟩ := h
      refine ⟨?_, ?_⟩
      · rw [← hids]
        simp
      · rw [← hc]
        simp
  | cons tr rest ih =>
      intro c ids items idsF hs c' h
      obtain ⟨traitPath, members⟩ := tr
      cases hp : processMembers traitPath sp c members with
      | error e => simp [processTraits, hp] at h
      | ok r =>
          obtain ⟨im, tim, sim, stim⟩ := r
          cases hrec : processTraits mi ats g sp rest (c + 1) (ids ++ [c]) with
          | mk res cF =>
              cases res with
              | error e => simp [processTraits, hp, hrec] at h
              | ok r2 =>
                  obtain ⟨items2, ids2, hs2⟩ := r2
                  simp only [processTraits, hp, hrec, Prod.mk.injEq,
                    Except.ok.injEq] at h
                  obtain ⟨⟨hitems, hids, hhs⟩, hc⟩ := h
                  obtain ⟨hids2, hc2⟩ := ih (c + 1) (ids ++ [c]) items2 ids2
                    hs2 cF (by rw [hrec])
                  constructor
                  · rw [← hids, hids2, List.length_cons, List.range'_succ,
                      List.append_assoc, List.singleton_append]
                  · rw [← hc, hc2, List.length_cons]
                    omega

theorem processTraits_static_items (mi : String) (ats : List String)
    (g : List TyParam) (sp : SynPath) :
    ∀ (ts : List (SynPath × List TraitItem)) (c : Nat) (ids : List Nat)
      (items : List GenItem) (idsF : List Nat) (hs : Bool) (c' : Nat),
      processTraits mi ats g sp ts c ids = (Except.ok (items, idsF, hs), c') →
      hs = true →
      GenItem.structItem (generate_mock_struct (mi ++ "Static") ats) ∈ items
      ∧ ∃ ids0,
          GenItem.mockImplBlock
              (generate_mock_impl (mi ++ "Static") (mi ++ "Static") ats
                (InitCode.registerStatics ids0 (mi ++ "Static"))) ∈ items
          ∧ ids0 ≠ [] ∧ ids0 <+: idsF := by
  intro ts
  induction ts with
  | nil =>
      intro c ids items idsF hs c' h htrue
      simp only [processTraits, Prod.mk.injEq, Except.ok.injEq] at h
      obtain ⟨⟨hitems, hids, hhs⟩, hc⟩ := h
      rw [← hhs] at htrue
      cases htrue
  | cons tr rest ih =>
      intro c ids items idsF hs c' h htrue
      obtain ⟨traitPath, members⟩ := tr
      cases hp : processMembers traitPath sp c members with
      | error e => simp [processTraits, hp] at h
      | ok r =>
          obtain ⟨im, tim, sim, stim⟩ := r
          cases hrec : processTraits mi ats g sp rest (c + 1) (ids ++ [c]) with
          | mk res cF =>
              cases res with
              | error e => simp [processTraits, hp, hrec] at h
              | ok r2 =>
                  obtain ⟨items2, ids2, hs2⟩ := r2
                  simp only [processTraits, hp, hrec, Prod.mk.injEq,
                    Except.ok.injEq] at h
                  obtain ⟨⟨hitems, hids, hhs⟩, hc⟩ := h
                  obtain ⟨hids2, _⟩ := processTraits_ids mi ats g sp rest
                    (c + 1) (ids ++ [c]) items2 ids2 hs2 cF (by rw [hrec])
                  by_cases hsim : sim.isEmpty
                  · have hhs2 : hs2 = true := by
                      rw [← hhs, hsim] at htrue
                      simpa using htrue
                    obtain ⟨hmem1, ids0, hmem2, hne, hpre⟩ :=
                      ih (c + 1) (ids ++ [c]) items2 ids2 hs2 cF
                        (by rw [hrec]) hhs2
                    rw [← hitems]
                    refine ⟨by simp [hmem1], ids0, by simp [hmem2], hne, ?_⟩
                    rw [← hids]
                    exact hpre
                  · rw [← hitems]
                    constructor
                    · simp only [hsim, Bool.false_eq_true, if_false,
                        List.mem_append]
                      left; right
                      simp
                    · refine ⟨ids ++ [c], ?_, by simp, ?_⟩
                      · simp only [hsim, Bool.false_eq_true, if_false,
                          List.mem_append]
                        left; right
                        simp
                      · rw [← hids, hids2]
                        exact List.prefix_append _ _


theorem append_static_ne (mi : String) : mi ++ "Static" ≠ mi := by
  intro h
  have hl := congrArg String.length h
  rw [String.length_append] at hl
  have : "Static".length = 0 := by omega
  exact absurd this (by decide)

theorem set_self_head_self (g : Bool) (s : PathSegment)
    (rest : List PathSegment) (p : SynPath) (hs : s.segIdent = "Self") :
    set_self (Ty.path none (SynPath.mk g (s :: rest))) p
      = Ty.path none (SynPath.mk false (p.segs ++ rest)) := by
  show process_ty (setSelfFunc p) (Ty.path none (SynPath.mk g (s :: rest))) = _
  rw [process_ty, if_pos hs]
  rfl

theorem generate_stub_code_fields (mockTypeId : Nat) (methodIdent : String)
    (generics : Generics) (selfArg : Option FnArg) (getInfo : GetInfoExpr)
    (args : List FnArg) (returnType : Ty) (u : Bool) (s : StubMethod)
    (h : generate_stub_code mockTypeId methodIdent generics selfArg getInfo
        args returnType u = Except.ok s) :
    s.returnType = returnType ∧ s.getInfo = getInfo
      ∧ s.mockTypeId = mockTypeId ∧ s.methodName = methodIdent
      ∧ s.verifyFn = "verify" ++ Nat.repr args.length := by
  by_cases hg : (args.filterMap capturedIdentOf).length < args.length
  · simp [generate_stub_code, hg] at h
  · simp only [generate_stub_code, hg, if_false, Except.ok.injEq] at h
    subst h
    exact ⟨rfl, rfl, rfl, rfl, rfl⟩

theorem generate_impl_method_last (mockTypeId : Nat) (methodIdent : String)
    (generics : Generics) (args : List FnArg) (returnType : Ty)
    (b : BuilderMethod)
    (h : generate_impl_method mockTypeId methodIdent generics args returnType
        = Except.ok b) :
    b.output.2.getLast? = some returnType ∧ b.name = methodIdent ++ "_call" := by
  cases hs : implMethodArgs 0 args with
  | error e =>
      simp only [generate_impl_method, hs] at h
      exact Except.noConfusion
        (show (Except.error e : Except String BuilderMethod)
            = Except.ok b from h)
  | ok specs =>
      rw [generate_impl_method_eq mockTypeId methodIdent generics args
        returnType specs hs, Except.ok.injEq] at h
      subst h
      exact ⟨List.getLast?_concat _, rfl⟩

theorem generate_trait_methods_static_inv (methodIdent : String)
    (decl : FnDecl) (generics : Generics) (traitPath : SynPath)
    (mockTypeId : Nat) (structPath : SynPath) (gm : GeneratedMethods)
    (hstatic : methodIsStatic decl = true)
    (hgen : generate_trait_methods methodIdent decl generics traitPath
        mockTypeId structPath = Except.ok gm) :
    gm.is_static = true
    ∧ gm.trait_impl_method.returnType
        = set_self (declReturnType decl) structPath
    ∧ gm.trait_impl_method.getInfo = GetInfoExpr.externLookup mockTypeId
    ∧ gm.trait_impl_method.mockTypeId = mockTypeId
    ∧ gm.trait_impl_method.methodName = methodIdent
    ∧ gm.impl_method.output.2.getLast?
        = some (set_self (declReturnType decl) structPath)
    ∧ gm.impl_method.name = methodIdent ++ "_call" := by
  simp only [generate_trait_methods, hstatic, if_true] at hgen
  cases hb : generate_impl_method mockTypeId methodIdent generics decl.inputs
      (set_self (declReturnType decl) structPath) with
  | error e => rw [hb] at hgen; cases hgen
  | ok mockMethod =>
      rw [hb] at hgen
      cases hst : generate_stub_code mockTypeId methodIdent generics none
          (GetInfoExpr.externLookup mockTypeId) decl.inputs
          (set_self (declReturnType decl) structPath) false with
      | error e => rw [hst] at hgen; cases hgen
      | ok stubMethod =>
          rw [hst, Except.ok.injEq] at hgen
          subst hgen
          obtain ⟨hrt, hgi, hid, hmn, _⟩ := generate_stub_code_fields
            mockTypeId methodIdent generics none
            (GetInfoExpr.externLookup mockTypeId) decl.inputs
            (set_self (declReturnType decl) structPath) false stubMethod hst
          obtain ⟨hlast, hname⟩ := generate_impl_method_last mockTypeId
            methodIdent generics decl.inputs
            (set_self (declReturnType decl) structPath) mockMethod hb
          exact ⟨rfl, hrt, hgi, hid, hmn, hlast, hname⟩

theorem generate_mock_for_traits_inv (mi : String) (tis : List TraitDesc)
    (isLocal : Bool) (c : Nat) (out : MockGenOutput) (c' : Nat)
    (h : generate_mock_for_traits mi tis isLocal c = (Except.ok out, c')) :
    ∃ traits ats loopItems,
      validateTraits [] tis = Except.ok traits
      ∧ gatherAssocTypes traits = Except.ok ats
      ∧ out.descriptors = traits
      ∧ ats = assocIdentsOf traits
      ∧ processTraits mi ats (mkImplGenerics ats) (mkStructPath mi ats) traits
          c [] = (Except.ok (loopItems, out.mockTypeIds, out.hasStaticMethods), c')
      ∧ out.items
          = GenItem.structItem (generate_mock_struct mi ats) :: loopItems
            ++ [GenItem.mockImplBlock
                  (generate_mock_impl mi out.mockedClassName ats InitCode.empty),
                GenItem.debugImplBlock mi]
            ++ (if isLocal && !hasGenericMethod traits && !out.hasStaticMethods
                then
                  match traits.getLast? with
                  | some (traitPath, _) =>
                      [GenItem.mockedImplBlock traitPath mi ats]
                  | none => []
                else [])
      ∧ out.mockTypeIds = List.range' c traits.length
      ∧ c' = c + traits.length := by
  cases hv : validateTraits [] tis with
  | error e => simp [generate_mock_for_traits, hv] at h
  | ok traits =>
      cases hg : gatherAssocTypes traits with
      | error e => simp [generate_mock_for_traits, hv, hg] at h
      | ok ats =>
          cases hpt : processTraits mi ats (mkImplGenerics ats)
              (mkStructPath mi ats) traits c [] with
          | mk res cF =>
              cases res with
              | error e => simp [generate_mock_for_traits, hv, hg, hpt] at h
              | ok r =>
                  obtain ⟨loopItems, mockTypeIds, hasStatics⟩ := r
                  simp only [generate_mock_for_traits, hv, hg, hpt,
                    Prod.mk.injEq, Except.ok.injEq] at h
                  obtain ⟨hout, hc⟩ := h
                  obtain ⟨hids, hcnt⟩ := processTraits_ids mi ats
                    (mkImplGenerics ats) (mkStructPath mi ats) traits c []
                    loopItems mockTypeIds hasStatics cF (by rw [hpt])
                  refine ⟨traits, ats, loopItems, rfl, hg, ?_, ?_, ?_, ?_, ?_, ?_⟩
                  · rw [← hout]
                  · exact gatherAssocTypes_eq traits ats hg
                  · rw [← hout, ← hc]
                    exact hpt
                  · rw [← hout]
                  · rw [← hout]
                    rw [hids]
                    simp
                  · rw [← hc, hcnt]


/-- C3: when an interface set has a static method, generation produces two
mock struct items (the instance mock first, a distinct static mock among
the items), the static mock's `Mock` impl carries the registering init
code over a nonempty prefix of the assigned mock type ids, and a static
method whose declared return type is an unqualified-`Self`-headed path
gets, in both the forwarding method and the builder's `CallMatchN` result
parameter, the concrete mock struct path with `Self` replaced — never an
unqualified `Self`. -/
theorem c3_static_mocks_and_self_return :
    (∀ (mi : String) (tis : List TraitDesc) (isLocal : Bool) (c : Nat)
        (out : MockGenOutput) (c' : Nat),
        generate_mock_for_traits mi tis isLocal c = (Except.ok out, c') →
        out.hasStaticMethods = true →
        (mi ++ "Static" ≠ mi)
        ∧ out.items.head?
            = some (GenItem.structItem
                (generate_mock_struct mi (assocIdentsOf out.descriptors)))
        ∧ GenItem.structItem
            (generate_mock_struct (mi ++ "Static")
              (assocIdentsOf out.descriptors)) ∈ out.items
        ∧ ∃ ids0,
            GenItem.mockImplBlock
                (generate_mock_impl (mi ++ "Static") (mi ++ "Static")
                  (assocIdentsOf out.descriptors)
                  (InitCode.registerStatics ids0 (mi ++ "Static")))
              ∈ out.items
            ∧ ids0 ≠ [] ∧ ids0 <+: out.mockTypeIds)
    ∧ (∀ (methodIdent : String) (decl : FnDecl) (generics : Generics)
        (traitPath : SynPath) (mockTypeId : Nat) (structPath : SynPath)
        (gm : GeneratedMethods) (g0 : Bool) (selfSeg : PathSegment)
        (rest : List PathSegment),
        generate_trait_methods methodIdent decl generics traitPath mockTypeId
            structPath = Except.ok gm →
        methodIsStatic decl = true →
        decl.output = FunctionRetTy.ty
            (Ty.path none (SynPath.mk g0 (selfSeg :: rest))) →
        selfSeg.segIdent = "Self" →
        gm.is_static = true
        ∧ gm.trait_impl_method.returnType
            = Ty.path none (SynPath.mk false (structPath.segs ++ rest))
        ∧ gm.trait_impl_method.getInfo = GetInfoExpr.externLookup mockTypeId
        ∧ gm.impl_method.output.2.getLast?
            = some (Ty.path none (SynPath.mk false (structPath.segs ++ rest)))) := by
  constructor
  · intro mi tis isLocal c out c' h hstat
    obtain ⟨traits, ats, loopItems, hv, hg, hdesc, hats, hpt, hitems, hids, hc⟩ :=
      generate_mock_for_traits_inv mi tis isLocal c out c' h
    obtain ⟨hmem1, ids0, hmem2, hne0, hpre⟩ :=
      processTraits_static_items mi ats (mkImplGenerics ats)
        (mkStructPath mi ats) traits c [] loopItems out.mockTypeIds
        out.hasStaticMethods c' hpt hstat
    have hats' : assocIdentsOf out.descriptors = ats := by
      rw [hdesc, ← hats]
    refine ⟨append_static_ne mi, ?_, ?_, ids0, ?_, hne0, hpre⟩
    · rw [hitems, hats']
      rfl
    · rw [hitems, hats']
      simp only [List.cons_append, List.mem_cons, List.mem_append]
      right; left; left
      exact hmem1
    · rw [hitems, hats']
      simp only [List.cons_append, List.mem_cons, List.mem_append]
      right; left; left
      exact hmem2
  · intro methodIdent decl generics traitPath mockTypeId structPath gm g0
      selfSeg rest hgen hstatic houtput hident
    obtain ⟨h1, h2, h3, _, _, h6, _⟩ :=
      generate_trait_methods_static_inv methodIdent decl generics traitPath
        mockTypeId structPath gm hstatic hgen
    have hret : declReturnType decl
        = Ty.path none (SynPath.mk g0 (selfSeg :: rest)) := by
      rw [declReturnType, houtput]
    have hss : set_self (declReturnType decl) structPath
        = Ty.path none (SynPath.mk false (structPath.segs ++ rest)) := by
      rw [hret]
      exact set_self_head_self g0 selfSeg rest structPath hident
    rw [hss] at h2 h6
    exact ⟨h1, h2, h3, h6⟩

/-- C3 witness: the Factory scenario. -/
theorem c3_witness :
    generate_mock_for_traits "FactoryMock" [⟨emptyModPath, factoryItem⟩] true 7
        = (Except.ok factoryGenOut, 8)
    ∧ factoryGenOut.hasStaticMethods = true
    ∧ factoryGenOut.items.head?
        = some (GenItem.structItem
            (generate_mock_struct "FactoryMock"
              (assocIdentsOf factoryGenOut.descriptors)))
    ∧ GenItem.structItem
        (generate_mock_struct ("FactoryMock" ++ "Static")
          (assocIdentsOf factoryGenOut.descriptors)) ∈ factoryGenOut.items
    ∧ (∃ ids0,
        GenItem.mockImplBlock
            (generate_mock_impl ("FactoryMock" ++ "Static")
              ("FactoryMock" ++ "Static")
              (assocIdentsOf factoryGenOut.descriptors)
              (InitCode.registerStatics ids0 ("FactoryMock" ++ "Static")))
          ∈ factoryGenOut.items
        ∧ ids0 ≠ [] ∧ ids0 <+: factoryGenOut.mockTypeIds)
    ∧ generate_trait_methods "create" createDecl Generics.empty
        (SynPath.mk false [mkSeg "Factory"]) 7 factoryStructPath
        = Except.ok createGm
    ∧ methodIsStatic createDecl = true
    ∧ createDecl.output = FunctionRetTy.ty
        (Ty.path none (SynPath.mk false (mkSeg "Self" :: [])))
    ∧ (mkSeg "Self").segIdent = "Self"
    ∧ createGm.trait_impl_method.returnType
        = Ty.path none (SynPath.mk false (factoryStructPath.segs ++ []))
    ∧ createGm.impl_method.output.2.getLast?
        = some (Ty.path none (SynPath.mk false (factoryStructPath.segs ++ []))) := by
  have hA := c3_static_mocks_and_self_return.1 "FactoryMock"
    [⟨emptyModPath, factoryItem⟩] true 7 factoryGenOut 8 rfl rfl
  have hB := c3_static_mocks_and_self_return.2 "create" createDecl
    Generics.empty (SynPath.mk false [mkSeg "Factory"]) 7 factoryStructPath
    createGm false (mkSeg "Self") [] rfl rfl rfl rfl
  exact ⟨rfl, rfl, hA.2.1, hA.2.2.1, hA.2.2.2, rfl, rfl, rfl, rfl, hB.2.1,
    hB.2.2.2⟩


theorem generate_trait_methods_is_static (methodIdent : String)
    (decl : FnDecl) (generics : Generics) (traitPath : SynPath)
    (mockTypeId : Nat) (structPath : SynPath) (gm : GeneratedMethods)
    (hgen : generate_trait_methods methodIdent decl generics traitPath
        mockTypeId structPath = Except.ok gm) :
    gm.is_static = methodIsStatic decl := by
  by_cases hs : methodIsStatic decl = true
  · obtain ⟨h1, _⟩ := generate_trait_methods_static_inv methodIdent decl
      generics traitPath mockTypeId structPath gm hs hgen
    rw [h1, hs]
  · have hs' : methodIsStatic decl = false := by
      rcases Bool.eq_false_or_eq_true (methodIsStatic decl) with h | h
      · exact absurd h hs
      · exact h
    rw [hs']
    simp only [generate_trait_methods, hs', Bool.false_eq_true, if_false]
      at hgen
    cases hi : decl.inputs with
    | nil =>
        rw [hi] at hgen
        simp at hgen
    | cons selfArg args =>
        rw [hi] at hgen
        cases h1 : generate_trait_impl_method mockTypeId methodIdent generics
            selfArg args (declReturnType decl) with
        | error e =>
            cases h2 : generate_impl_method_for_trait mockTypeId methodIdent
                generics args (declReturnType decl) traitPath with
            | error e2 =>
                simp only [h1, h2] at hgen
                exact Except.noConfusion hgen
            | ok im =>
                simp only [h1, h2] at hgen
                exact Except.noConfusion hgen
        | ok tim =>
            cases h2 : generate_impl_method_for_trait mockTypeId methodIdent
                generics args (declReturnType decl) traitPath with
            | error e2 =>
                simp only [h1, h2] at hgen
                exact Except.noConfusion hgen
            | ok im =>
                simp only [h1, h2, Except.ok.injEq] at hgen
                subst hgen
                rfl

theorem processMembers_static (traitPath : SynPath) (structPath : SynPath)
    (mockTypeId : Nat) :
    ∀ (members : List TraitItem) (im : List BuilderMethod)
      (tim : List StubMethod) (sim : List BuilderMethod)
      (stim : List StubMethod),
      processMembers traitPath structPath mockTypeId members
          = Except.ok (im, tim, sim, stim) →
      (!sim.isEmpty) = members.any memberIsStaticMethod := by
  intro members
  induction members with
  | nil =>
      intro im tim sim stim h
      simp only [processMembers, Except.ok.injEq, Prod.mk.injEq] at h
      obtain ⟨h1, h2, h3, h4⟩ := h
      rw [← h3]
      simp
  | cons m rest ih =>
      intro im tim sim stim h
      cases hn : m.node with
      | method sig hasBody =>
          by_cases hsafe : sig.safety = Safety.normal
          case neg =>
            simp [processMembers, hn, hsafe] at h
          case pos =>
          by_cases hconst : sig.constness = true
          case pos =>
            simp [processMembers, hn, hsafe, hconst] at h
          case neg =>
          by_cases habi : sig.abi = none
          case neg =>
            simp [processMembers, hn, hsafe, hconst, habi] at h
          case pos =>
          have hc1 : ¬(sig.safety ≠ Safety.normal) := fun hh => hh hsafe
          have hc3 : ¬(sig.abi ≠ none) := fun hh => hh habi
          cases hg : generate_trait_methods m.ident sig.decl sig.generics
              traitPath mockTypeId structPath with
          | error e =>
              simp only [processMembers, hn, if_neg hc1, if_neg hconst,
                if_neg hc3, hg] at h
              exact Except.noConfusion h
          | ok ms =>
              cases hr : processMembers traitPath structPath mockTypeId
                  rest with
              | error e =>
                  simp only [processMembers, hn, if_neg hc1, if_neg hconst,
                    if_neg hc3, hg, hr] at h
                  exact Except.noConfusion h
              | ok r4 =>
                  obtain ⟨im', tim', sim', stim'⟩ := r4
                  simp only [processMembers, hn, if_neg hc1, if_neg hconst,
                    if_neg hc3, hg, hr] at h
                  have hmem := ih im' tim' sim' stim' hr
                  have hstat := generate_trait_methods_is_static m.ident
                    sig.decl sig.generics traitPath mockTypeId structPath ms hg
                  by_cases hms : ms.is_static = true
                  · rw [if_pos hms] at h
                    simp only [Except.ok.injEq, Prod.mk.injEq] at h
                    obtain ⟨h1, h2, h3, h4⟩ := h
                    rw [← h3]
                    simp only [List.any_cons, memberIsStaticMethod, hn,
                      ← hstat, hms]
                    simp
                  · have hms' : ms.is_static = false := by
                      rcases Bool.eq_false_or_eq_true ms.is_static with hh | hh
                      · exact absurd hh hms
                      · exact hh
                    have hcond' : ¬(ms.is_static = true) := by
                      simp [hms']
                    rw [if_neg hcond'] at h
                    simp only [Except.ok.injEq, Prod.mk.injEq] at h
                    obtain ⟨h1, h2, h3, h4⟩ := h
                    rw [← h3]
                    simp only [List.any_cons, memberIsStaticMethod, hn,
                      ← hstat, hms']
                    simp [hmem]
      | typeItem bounds dflt =>
          by_cases hb : bounds.isEmpty = true
          · have hcond : ¬((!bounds.isEmpty) = true) := by simp [hb]
            simp only [processMembers, hn, if_neg hcond] at h
            have hmem := ih im tim sim stim h
            simp only [List.any_cons, memberIsStaticMethod, hn]
            simp [hmem]
          · simp [processMembers, hn, hb] at h
      | constItem d => simp [processMembers, hn] at h
      | macItem d => simp [processMembers, hn] at h

theorem processTraits_hs (mi : String) (ats : List String)
    (g : List TyParam) (sp : SynPath) :
    ∀ (ts : List (SynPath × List TraitItem)) (c : Nat) (ids : List Nat)
      (items : List GenItem) (idsF : List Nat) (hs : Bool) (c' : Nat),
      processTraits mi ats g sp ts c ids = (Except.ok (items, idsF, hs), c') →
      hs = anyStaticMethod ts := by
  intro ts
  induction ts with
  | nil =>
      intro c ids items idsF hs c' h
      simp only [processTraits, Prod.mk.injEq, Except.ok.injEq] at h
      obtain ⟨⟨_, _, hhs⟩, _⟩ := h
      rw [← hhs]
      simp [anyStaticMethod]
  | cons tr rest ih =>
      intro c ids items idsF hs c' h
      obtain ⟨traitPath, members⟩ := tr
      cases hp : processMembers traitPath sp c members with
      | error e => simp [processTraits, hp] at h
      | ok r =>
          obtain ⟨im, tim, sim, stim⟩ := r
          cases hrec : processTraits mi ats g sp rest (c + 1) (ids ++ [c]) with
          | mk res cF =>
              cases res with
              | error e => simp [processTraits, hp, hrec] at h
              | ok r2 =>
                  obtain ⟨items2, ids2, hs2⟩ := r2
                  simp only [processTraits, hp, hrec, Prod.mk.injEq,
                    Except.ok.injEq] at h
                  obtain ⟨⟨_, _, hhs⟩, _⟩ := h
                  have h1 := processMembers_static traitPath sp c members im
                    tim sim stim hp
                  have h2 := ih (c + 1) (ids ++ [c]) items2 ids2 hs2 cF
                    (by rw [hrec])
                  rw [← hhs, h2]
                  simp only [anyStaticMethod, List.any_cons]
                  rw [← h1]

theorem processTraits_no_mocked (mi : String) (ats : List String)
    (g : List TyParam) (sp : SynPath) :
    ∀ (ts : List (SynPath × List TraitItem)) (c : Nat) (ids : List Nat)
      (items : List GenItem) (idsF : List Nat) (hs : Bool) (c' : Nat),
      processTraits mi ats g sp ts c ids = (Except.ok (items, idsF, hs), c') →
      items.any isMockedImplItem = false := by
  intro ts
  induction ts with
  | nil =>
      intro c ids items idsF hs c' h
      simp only [processTraits, Prod.mk.injEq, Except.ok.injEq] at h
      obtain ⟨⟨hitems, _, _⟩, _⟩ := h
      rw [← hitems]
      rfl
  | cons tr rest ih =>
      intro c ids items idsF hs c' h
      obtain ⟨traitPath, members⟩ := tr
      cases hp : processMembers traitPath sp c members with
      | error e => simp [processTraits, hp] at h
      | ok r =>
          obtain ⟨im, tim, sim, stim⟩ := r
          cases hrec : processTraits mi ats g sp rest (c + 1) (ids ++ [c]) with
          | mk res cF =>
              cases res with
              | error e => simp [processTraits, hp, hrec] at h
              | ok r2 =>
                  obtain ⟨items2, ids2, hs2⟩ := r2
                  simp only [processTraits, hp, hrec, Prod.mk.injEq,
                    Except.ok.injEq] at h
                  obtain ⟨⟨hitems, _, _⟩, _⟩ := h
                  have h2 := ih (c + 1) (ids ++ [c]) items2 ids2 hs2 cF
                    (by rw [hrec])
                  rw [← hitems]
                  simp only [List.any_append, List.any_cons, List.any_nil,
                    h2, isMockedImplItem, Bool.or_false, Bool.false_or]
                  by_cases hsim : sim.isEmpty
                  · simp [hsim]
                  · simp [hsim, isMockedImplItem]


theorem validateTraits_map_fst :
    ∀ (descs : List TraitDesc) (seen : List SynPath)
      (ts : List (SynPath × List TraitItem)),
      validateTraits seen descs = Except.ok ts →
      ts.map Prod.fst = descs.map traitPathOf := by
  intro descs
  induction descs with
  | nil =>
      intro seen ts h
      simp only [validateTraits, Except.ok.injEq] at h
      rw [← h]
      rfl
  | cons d rest ih =>
      intro seen ts h
      cases hn : d.trait_item.node with
      | traitItem safety generics bounds subs =>
          by_cases hs : safety = Safety.normal
          case neg =>
            simp [validateTraits, hn, hs] at h
          case pos =>
          have hc1 : ¬(safety ≠ Safety.normal) := fun hh => hh hs
          by_cases hg : (!generics.lifetimes.isEmpty
              || !generics.ty_params.isEmpty
              || !generics.where_predicates.isEmpty) = true
          case pos =>
            simp only [validateTraits, hn, if_neg hc1, if_pos hg] at h
            exact Except.noConfusion h
          case neg =>
          cases hcb : checkBounds seen bounds with
          | error e =>
              simp only [validateTraits, hn, if_neg hc1, if_neg hg, hcb] at h
              exact Except.noConfusion h
          | ok u =>
              cases u
              cases hrec : validateTraits
                  (SynPath.mk d.mod_path.globalFlag
                    (d.mod_path.segs
                      ++ [PathSegment.mk d.trait_item.ident
                            PathParameters.noneParams]) :: seen) rest with
              | error e =>
                  simp only [validateTraits, hn, if_neg hc1, if_neg hg, hcb,
                    hrec] at h
                  exact Except.noConfusion h
              | ok ts2 =>
                  simp only [validateTraits, hn, if_neg hc1, if_neg hg, hcb,
                    hrec, Except.ok.injEq] at h
                  rw [← h]
                  simp only [List.map_cons]
                  rw [ih _ ts2 hrec]
                  rfl
      | foreignMod its => simp [validateTraits, hn] at h
      | otherItem d2 => simp [validateTraits, hn] at h

/-- C7 counterexample: with two interfaces (base `::m::A` plus primary
`B`), local generation still emits the `Mocked` convenience impl,
contradicting the claim that it appears only in the single-interface
case. -/
theorem c7_counterexample :
    twoTraitOut.descriptors.length = 2
    ∧ twoTraitOut.items.any isMockedImplItem = true := ⟨by rfl, by rfl⟩

/-- C7 (amended): the `Mocked` convenience impl is emitted exactly when
generation is local, no method of any processed interface has its own
type parameters, and no method is static; the number of interfaces is
irrelevant, and when emitted the impl is keyed to the last (primary)
descriptor's trait path. -/
theorem c7_mocked_impl_iff_local_nongeneric_nonstatic
    (mi : String) (tis : List TraitDesc) (isLocal : Bool) (c : Nat)
    (out : MockGenOutput) (c' : Nat)
    (h : generate_mock_for_traits mi tis isLocal c = (Except.ok out, c'))
    (hne : tis ≠ []) :
    out.items.any isMockedImplItem
      = (isLocal && !hasGenericMethod out.descriptors
          && !anyStaticMethod out.descriptors)
    ∧ ((isLocal && !hasGenericMethod out.descriptors
          && !anyStaticMethod out.descriptors) = true →
        ∃ tp ms, out.descriptors.getLast? = some (tp, ms)
          ∧ GenItem.mockedImplBlock tp mi (assocIdentsOf out.descriptors)
              ∈ out.items) := by
  obtain ⟨traits, ats, loopItems, hv, hga, hdesc, hats, hpt, hitems, hids, hc⟩ :=
    generate_mock_for_traits_inv mi tis isLocal c out c' h
  have hloop := processTraits_no_mocked mi ats (mkImplGenerics ats)
    (mkStructPath mi ats) traits c [] loopItems out.mockTypeIds
    out.hasStaticMethods c' hpt
  have hhs := processTraits_hs mi ats (mkImplGenerics ats)
    (mkStructPath mi ats) traits c [] loopItems out.mockTypeIds
    out.hasStaticMethods c' hpt
  have hlen : traits.length = tis.length := by
    have hmf := validateTraits_map_fst tis [] traits hv
    have h2 := congrArg List.length hmf
    simpa using h2
  have htne : traits ≠ [] := by
    intro hnil
    apply hne
    rw [hnil] at hlen
    exact List.length_eq_zero.mp hlen.symm
  have hsome : traits.getLast?.isSome := List.getLast?_isSome.mpr htne
  obtain ⟨⟨tp0, ms0⟩, hlast⟩ := Option.isSome_iff_exists.mp hsome
  constructor
  · rw [hitems, hdesc, hhs]
    by_cases hcond : (isLocal && !hasGenericMethod traits
        && !anyStaticMethod traits) = true
    · rw [if_pos hcond, hlast, hcond]
      simp [isMockedImplItem, hloop]
    · rw [if_neg hcond]
      rw [Bool.not_eq_true] at hcond
      rw [hcond]
      simp [isMockedImplItem, hloop]
  · intro hcond
    rw [hdesc] at hcond ⊢
    refine ⟨tp0, ms0, hlast, ?_⟩
    rw [← hats, hitems]
    have hcond2 : (isLocal && !hasGenericMethod traits
        && !out.hasStaticMethods) = true := by
      rw [hhs]
      exact hcond
    rw [if_pos hcond2, hlast]
    simp

/-- C7 witness: the amended equivalence instantiated at the two-trait
local run (the impl is emitted, keyed to the primary trait `B`). -/
theorem c7_witness :
    twoTraitOut.items.any isMockedImplItem
      = (true && !hasGenericMethod twoTraitOut.descriptors
          && !anyStaticMethod twoTraitOut.descriptors)
    ∧ ((true && !hasGenericMethod twoTraitOut.descriptors
          && !anyStaticMethod twoTraitOut.descriptors) = true →
        ∃ tp ms, twoTraitOut.descriptors.getLast? = some (tp, ms)
          ∧ GenItem.mockedImplBlock tp "BMock"
              (assocIdentsOf twoTraitOut.descriptors) ∈ twoTraitOut.items) :=
  c7_mocked_impl_iff_local_nongeneric_nonstatic "BMock"
    [⟨SynPath.mk true [mkSeg "m"], traitA⟩, ⟨emptyModPath, traitB⟩] true 0
    twoTraitOut 2 (by rfl) (by simp)


theorem mem_mockedIte {x : GenItem} {b : Bool}
    {tl : Option (SynPath × List TraitItem)} {mi : String} {ats : List String}
    (hx : x ∈ (if b = true then
        match tl with
        | some (traitPath, _) => [GenItem.mockedImplBlock traitPath mi ats]
        | none => []
      else ([] : List GenItem))) :
    ∃ tp, x = GenItem.mockedImplBlock tp mi ats := by
  cases b with
  | false => simp at hx
  | true =>
      cases tl with
      | none => simp at hx
      | some p =>
          obtain ⟨tp, ms⟩ := p
          simp at hx
          exact ⟨tp, hx⟩

theorem processTraits_generics (mi : String) (ats : List String)
    (g : List TyParam) (sp : SynPath) :
    ∀ (ts : List (SynPath × List TraitItem)) (c : Nat) (ids : List Nat)
      (items : List GenItem) (idsF : List Nat) (hs : Bool) (c' : Nat),
      processTraits mi ats g sp ts c ids = (Except.ok (items, idsF, hs), c') →
      (∀ g2 sn ms, GenItem.implBlock g2 sn ms ∈ items → g2 = g)
      ∧ (∀ g2 tp sn ti ms sms,
          GenItem.traitImplBlock g2 tp sn ti ms sms ∈ items → g2 = g) := by
  intro ts
  induction ts with
  | nil =>
      intro c ids items idsF hs c' h
      simp only [processTraits, Prod.mk.injEq, Except.ok.injEq] at h
      obtain ⟨⟨hitems, _, _⟩, _⟩ := h
      rw [← hitems]
      constructor
      · intro g2 sn ms hmem
        simp at hmem
      · intro g2 tp sn ti ms sms hmem
        simp at hmem
  | cons tr rest ih =>
      intro c ids items idsF hs c' h
      obtain ⟨traitPath, members⟩ := tr
      cases hp : processMembers traitPath sp c members with
      | error e => simp [processTraits, hp] at h
      | ok r =>
          obtain ⟨im, tim, sim, stim⟩ := r
          cases hrec : processTraits mi ats g sp rest (c + 1) (ids ++ [c]) with
          | mk res cF =>
              cases res with
              | error e => simp [processTraits, hp, hrec] at h
              | ok r2 =>
                  obtain ⟨items2, ids2, hs2⟩ := r2
                  simp only [processTraits, hp, hrec, Prod.mk.injEq,
                    Except.ok.injEq] at h
                  obtain ⟨⟨hitems, _, _⟩, _⟩ := h
                  obtain ⟨ihg1, ihg2⟩ := ih (c + 1) (ids ++ [c]) items2 ids2
                    hs2 cF (by rw [hrec])
                  constructor
                  · intro g2 sn ms hmem
                    rw [← hitems] at hmem
                    simp only [List.mem_append, List.mem_cons,
                      List.mem_singleton, List.not_mem_nil, or_false] at hmem
                    rcases hmem with ((h1 | h1) | h1) | h1
                    · injection h1 with hg hsn hms
                    · simp at h1
                    · by_cases hsim : sim.isEmpty = true
                      · rw [if_pos hsim] at h1
                        simp at h1
                      · rw [if_neg hsim] at h1
                        simp only [List.mem_cons, List.mem_singleton,
                          List.not_mem_nil, or_false,
                          GenItem.implBlock.injEq] at h1
                        rcases h1 with h1 | h1 | h1
                        · simp at h1
                        · exact h1.1
                        · simp at h1
                    · exact ihg1 g2 sn ms h1
                  · intro g2 tp sn ti ms sms hmem
                    rw [← hitems] at hmem
                    simp only [List.mem_append, List.mem_cons,
                      List.mem_singleton, List.not_mem_nil, or_false] at hmem
                    rcases hmem with ((h1 | h1) | h1) | h1
                    · simp at h1
                    · injection h1 with hg hrest
                    · by_cases hsim : sim.isEmpty = true
                      · rw [if_pos hsim] at h1
                        simp at h1
                      · rw [if_neg hsim] at h1
                        simp at h1
                    · exact ihg2 g2 tp sn ti ms sms h1

/-- C8: for an interface set with N associated types in total, the mock
struct heads the items with exactly the N associated-type identifiers as
its type parameters and exactly the fields `scenario`, `mock_id` and one
`_phantom_data` tuple of one `PhantomData` marker per associated type;
the impl-side generic parameter list has one parameter per associated
type, each bounded by `::std::fmt::Debug`, and every generated inherent
or trait impl block carries exactly that generic list. -/
theorem c8_struct_shape_and_debug_bounds
    (mi : String) (tis : List TraitDesc) (isLocal : Bool) (c : Nat)
    (out : MockGenOutput) (c' : Nat)
    (h : generate_mock_for_traits mi tis isLocal c = (Except.ok out, c')) :
    (out.items.head? = some (GenItem.structItem
        { name := mi,
          params := assocIdentsOf out.descriptors,
          fields := [("scenario", FieldTy.scenarioRc),
            ("mock_id", FieldTy.usizeTy),
            ("_phantom_data",
              FieldTy.phantomTuple (assocIdentsOf out.descriptors))] }))
    ∧ (mkImplGenerics (assocIdentsOf out.descriptors)).length
        = (assocIdentsOf out.descriptors).length
    ∧ (∀ p ∈ mkImplGenerics (assocIdentsOf out.descriptors),
        p.bounds = [debugBound])
    ∧ (∀ g sn ms, GenItem.implBlock g sn ms ∈ out.items →
        g = mkImplGenerics (assocIdentsOf out.descriptors))
    ∧ (∀ g tp sn ti ms sms,
        GenItem.traitImplBlock g tp sn ti ms sms ∈ out.items →
        g = mkImplGenerics (assocIdentsOf out.descriptors)) := by
  obtain ⟨traits, ats, loopItems, hv, hga, hdesc, hats, hpt, hitems, hids, hc⟩ :=
    generate_mock_for_traits_inv mi tis isLocal c out c' h
  have hats' : assocIdentsOf out.descriptors = ats := by
    rw [hdesc, ← hats]
  obtain ⟨hg1, hg2⟩ := processTraits_generics mi ats (mkImplGenerics ats)
    (mkStructPath mi ats) traits c [] loopItems out.mockTypeIds
    out.hasStaticMethods c' hpt
  refine ⟨?_, ?_, ?_, ?_, ?_⟩
  · rw [hitems, hats']
    rfl
  · simp [mkImplGenerics]
  · intro p hp
    rw [hats'] at hp
    simp only [mkImplGenerics, List.mem_map] at hp
    obtain ⟨a, _, hpa⟩ := hp
    rw [← hpa]
  · intro g2 sn ms hmem
    rw [hats']
    rw [hitems] at hmem
    simp only [List.mem_append, List.mem_cons, List.mem_singleton,
      List.not_mem_nil, or_false] at hmem
    rcases hmem with ((h1 | h1) | h1 | h1) | h1
    · simp at h1
    · exact hg1 g2 sn ms h1
    · simp at h1
    · simp at h1
    · obtain ⟨tp, hx⟩ := mem_mockedIte h1
      simp at hx
  · intro g2 tp sn ti ms sms hmem
    rw [hats']
    rw [hitems] at hmem
    simp only [List.mem_append, List.mem_cons, List.mem_singleton,
      List.not_mem_nil, or_false] at hmem
    rcases hmem with ((h1 | h1) | h1 | h1) | h1
    · simp at h1
    · exact hg2 g2 tp sn ti ms sms h1
    · simp at h1
    · simp at h1
    · obtain ⟨tp2, hx⟩ := mem_mockedIte h1
      simp at hx

/-- C8 witness: the one-associated-type trait `WithAssoc`. -/
theorem c8_witness :
    ((assocOut.items.head? = some (GenItem.structItem
        { name := "WithAssocMock",
          params := assocIdentsOf assocOut.descriptors,
          fields := [("scenario", FieldTy.scenarioRc),
            ("mock_id", FieldTy.usizeTy),
            ("_phantom_data",
              FieldTy.phantomTuple (assocIdentsOf assocOut.descriptors))] }))
    ∧ (mkImplGenerics (assocIdentsOf assocOut.descriptors)).length
        = (assocIdentsOf assocOut.descriptors).length
    ∧ (∀ p ∈ mkImplGenerics (assocIdentsOf assocOut.descriptors),
        p.bounds = [debugBound])
    ∧ (∀ g sn ms, GenItem.implBlock g sn ms ∈ assocOut.items →
        g = mkImplGenerics (assocIdentsOf assocOut.descriptors))
    ∧ (∀ g tp sn ti ms sms,
        GenItem.traitImplBlock g tp sn ti ms sms ∈ assocOut.items →
        g = mkImplGenerics (assocIdentsOf assocOut.descriptors))) :=
  c8_struct_shape_and_debug_bounds "WithAssocMock"
    [⟨emptyModPath, assocTrait⟩] true 0 assocOut 1 (by rfl)


theorem resolveReferenced_spec (refs : List (SynPath × SynPath))
    (known : List (SynPath × Item)) :
    ∀ (bs : List TyParamBound) (rs : List TraitDesc),
      resolveReferenced refs known bs = Except.ok rs →
      rs.length = bs.length
      ∧ ∀ (i : Nat) (hb : i < bs.length) (hr : i < rs.length),
          resolveBound refs known (bs.get ⟨i, hb⟩)
            = Except.ok (rs.get ⟨i, hr⟩) := by
  intro bs
  induction bs with
  | nil =>
      intro rs h
      simp only [resolveReferenced, Except.ok.injEq] at h
      subst h
      exact ⟨rfl, fun i hb hr => absurd hb (by simp)⟩
  | cons b rest ih =>
      intro rs h
      cases hd : resolveBound refs known b with
      | error e =>
          simp only [resolveReferenced, hd] at h
          exact Except.noConfusion h
      | ok d =>
          cases ht : resolveReferenced refs known rest with
          | error e =>
              simp only [resolveReferenced, hd, ht] at h
              exact Except.noConfusion h
          | ok ds =>
              simp only [resolveReferenced, hd, ht, Except.ok.injEq] at h
              obtain ⟨hlen, hpt⟩ := ih ds ht
              subst h
              refine ⟨by simp [hlen], ?_⟩
              intro i hb hr
              cases i with
              | zero => exact hd
              | succ j =>
                  exact hpt j (Nat.lt_of_succ_lt_succ hb)
                    (Nat.lt_of_succ_lt_succ hr)

theorem generate_mock_trait_case
    (item : Item) (opts : MockAttrOptions) (st : GenState)
    (safety : Safety) (gens : Generics) (bounds : List TyParamBound)
    (subs : List TraitItem) (out : MockGenOutput) (inc : Bool)
    (st' : GenState)
    (hnode : item.node = ItemKind.traitItem safety gens bounds subs)
    (hgen : generate_mock item opts st = (Except.ok (out, inc), st')) :
    ∃ rs mockIdent c2,
      resolveReferenced opts.refs st.knownTraits bounds = Except.ok rs
      ∧ generate_mock_for_traits mockIdent
          (rs ++ [⟨SynPath.mk false [], item⟩]) true st.nextMockTypeId
          = (Except.ok out, c2) := by
  cases hres : resolveReferenced opts.refs st.knownTraits bounds with
  | error e =>
      cases hmn : opts.mock_name with
      | none =>
          simp only [generate_mock, hnode, hres, hmn, Prod.mk.injEq] at hgen
          exact Except.noConfusion hgen.1
      | some n =>
          simp only [generate_mock, hnode, hres, hmn, Prod.mk.injEq] at hgen
          exact Except.noConfusion hgen.1
  | ok rs =>
      refine ⟨rs, ?_⟩
      cases hmn : opts.mock_name with
      | none =>
          cases hmp : opts.module_path with
          | none =>
              cases hgt : generate_mock_for_traits (item.ident ++ "Mock")
                  (rs ++ [⟨SynPath.mk false [], item⟩]) true
                  st.nextMockTypeId with
              | mk r c2 =>
                  cases r with
                  | error e =>
                      simp only [generate_mock, hnode, hres, hmn, hmp, hgt,
                        Prod.mk.injEq] at hgen
                      exact Except.noConfusion hgen.1
                  | ok out2 =>
                      simp only [generate_mock, hnode, hres, hmn, hmp, hgt,
                        Prod.mk.injEq, Except.ok.injEq] at hgen
                      obtain ⟨⟨hout, _⟩, _⟩ := hgen
                      rw [hout] at hgt
                      exact ⟨item.ident ++ "Mock", c2, rfl, hgt⟩
          | some mp =>
              cases hgt : generate_mock_for_traits (item.ident ++ "Mock")
                  (rs ++ [⟨SynPath.mk false [], item⟩]) true
                  st.nextMockTypeId with
              | mk r c2 =>
                  cases r with
                  | error e =>
                      simp only [generate_mock, hnode, hres, hmn, hmp, hgt,
                        Prod.mk.injEq] at hgen
                      exact Except.noConfusion hgen.1
                  | ok out2 =>
                      simp only [generate_mock, hnode, hres, hmn, hmp, hgt,
                        Prod.mk.injEq, Except.ok.injEq] at hgen
                      obtain ⟨⟨hout, _⟩, _⟩ := hgen
                      rw [hout] at hgt
                      exact ⟨item.ident ++ "Mock", c2, rfl, hgt⟩
      | some n =>
          cases hmp : opts.module_path with
          | none =>
              cases hgt : generate_mock_for_traits n
                  (rs ++ [⟨SynPath.mk false [], item⟩]) true
                  st.nextMockTypeId with
              | mk r c2 =>
                  cases r with
                  | error e =>
                      simp only [generate_mock, hnode, hres, hmn, hmp, hgt,
                        Prod.mk.injEq] at hgen
                      exact Except.noConfusion hgen.1
                  | ok out2 =>
                      simp only [generate_mock, hnode, hres, hmn, hmp, hgt,
                        Prod.mk.injEq, Except.ok.injEq] at hgen
                      obtain ⟨⟨hout, _⟩, _⟩ := hgen
                      rw [hout] at hgt
                      exact ⟨n, c2, rfl, hgt⟩
          | some mp =>
              cases hgt : generate_mock_for_traits n
                  (rs ++ [⟨SynPath.mk false [], item⟩]) true
                  st.nextMockTypeId with
              | mk r c2 =>
                  cases r with
                  | error e =>
                      simp only [generate_mock, hnode, hres, hmn, hmp, hgt,
                        Prod.mk.injEq] at hgen
                      exact Except.noConfusion hgen.1
                  | ok out2 =>
                      simp only [generate_mock, hnode, hres, hmn, hmp, hgt,
                        Prod.mk.injEq, Except.ok.injEq] at hgen
                      obtain ⟨⟨hout, _⟩, _⟩ := hgen
                      rw [hout] at hgt
                      exact ⟨n, c2, rfl, hgt⟩

/-- C1: a trait-entry-point run over a primary interface with k declared
base-trait bounds resolves every bound in declaration order, and the
descriptor list has length k+1 with the resolved bases first (in bound
order, under their registered paths) and the primary interface last
(under its bare local path); the assigned mock type ids are the k+1
consecutive values starting at the state counter, hence pairwise
distinct. -/
theorem c1_descriptor_order_and_distinct_ids
    (item : Item) (opts : MockAttrOptions) (st : GenState)
    (safety : Safety) (gens : Generics) (bounds : List TyParamBound)
    (subs : List TraitItem) (out : MockGenOutput) (inc : Bool)
    (st' : GenState)
    (hnode : item.node = ItemKind.traitItem safety gens bounds subs)
    (hgen : generate_mock item opts st = (Except.ok (out, inc), st')) :
    ∃ rs, resolveReferenced opts.refs st.knownTraits bounds = Except.ok rs
      ∧ rs.length = bounds.length
      ∧ (∀ (i : Nat) (hb : i < bounds.length) (hr : i < rs.length),
          resolveBound opts.refs st.knownTraits (bounds.get ⟨i, hb⟩)
            = Except.ok (rs.get ⟨i, hr⟩))
      ∧ out.descriptors.length = bounds.length + 1
      ∧ out.descriptors.map Prod.fst
          = rs.map traitPathOf ++ [SynPath.mk false [mkSeg item.ident]]
      ∧ out.mockTypeIds = List.range' st.nextMockTypeId (bounds.length + 1)
      ∧ out.mockTypeIds.Nodup := by
  obtain ⟨rs, mockIdent, c2, hres, hgt⟩ := generate_mock_trait_case item opts
    st safety gens bounds subs out inc st' hnode hgen
  obtain ⟨hlen, hpt⟩ := resolveReferenced_spec opts.refs st.knownTraits
    bounds rs hres
  obtain ⟨traits, ats, loopItems, hv, hga, hdesc, hats, hptl, hitems, hids, hc⟩ :=
    generate_mock_for_traits_inv mockIdent
      (rs ++ [⟨SynPath.mk false [], item⟩]) true st.nextMockTypeId out c2 hgt
  have hmap := validateTraits_map_fst (rs ++ [⟨SynPath.mk false [], item⟩])
    [] traits hv
  have htl : traits.length = bounds.length + 1 := by
    have h2 := congrArg List.length hmap
    simp only [List.length_map, List.length_append, List.length_singleton]
      at h2
    rw [h2, hlen]
  refine ⟨rs, hres, hlen, hpt, ?_, ?_, ?_, ?_⟩
  · rw [hdesc, htl]
  · rw [hdesc, hmap, List.map_append]
    simp [traitPathOf, mkSeg, SynPath.globalFlag, SynPath.segs]
  · rw [hids, htl]
  · rw [hids]
    exact List.nodup_range' st.nextMockTypeId traits.length

/-- C1 witness: trait `B` with base `::m::A` against the state registering
`::m::A` at counter 3: one base resolved, descriptors `[::m::A, B]`, ids
`[3, 4]`. -/
theorem c1_witness :
    (∃ rs, resolveReferenced plainOpts.refs stA.knownTraits
          [TyParamBound.traitBound ⟨[], pathMA⟩ TraitBoundModifier.noModifier]
          = Except.ok rs
      ∧ rs.length = [TyParamBound.traitBound ⟨[], pathMA⟩
          TraitBoundModifier.noModifier].length
      ∧ (∀ (i : Nat)
          (hb : i < [TyParamBound.traitBound ⟨[], pathMA⟩
              TraitBoundModifier.noModifier].length)
          (hr : i < rs.length),
          resolveBound plainOpts.refs stA.knownTraits
              ([TyParamBound.traitBound ⟨[], pathMA⟩
                  TraitBoundModifier.noModifier].get ⟨i, hb⟩)
            = Except.ok (rs.get ⟨i, hr⟩))
      ∧ bGenOut.descriptors.length = [TyParamBound.traitBound ⟨[], pathMA⟩
          TraitBoundModifier.noModifier].length + 1
      ∧ bGenOut.descriptors.map Prod.fst
          = rs.map traitPathOf ++ [SynPath.mk false [mkSeg traitB.ident]]
      ∧ bGenOut.mockTypeIds = List.range' stA.nextMockTypeId
          ([TyParamBound.traitBound ⟨[], pathMA⟩
              TraitBoundModifier.noModifier].length + 1)
      ∧ bGenOut.mockTypeIds.Nodup) :=
  c1_descriptor_order_and_distinct_ids traitB plainOpts stA Safety.normal
    Generics.empty
    [TyParamBound.traitBound ⟨[], pathMA⟩ TraitBoundModifier.noModifier]
    [⟨"b", TraitItemKind.method (mkMethodSig [selfRefArg]
        FunctionRetTy.default) true⟩]
    bGenOut true bGenSt rfl (by rfl)


/-- C10: with `module_path` supplied, the trait entry point inserts the
interface into the process-wide registry before its shape is validated,
and a validation error does not roll the mutation back: the state
returned alongside the error still maps the registered path to the item,
and a later `resolveBound` against that state (with a ref entry mapping
the path to itself) resolves the rejected interface as a base trait. -/
theorem c10_registry_retains_entry_on_error
    (item : Item) (opts : MockAttrOptions) (st : GenState)
    (safety : Safety) (gens : Generics) (bounds : List TyParamBound)
    (subs : List TraitItem) (modulePath : SynPath) (rs : List TraitDesc)
    (e : String)
    (hnode : item.node = ItemKind.traitItem safety gens bounds subs)
    (hmp : opts.module_path = some modulePath)
    (hres : resolveReferenced opts.refs st.knownTraits bounds = Except.ok rs)
    (herr : (generate_mock item opts st).1 = Except.error e) :
    lookupPath (generate_mock item opts st).2.knownTraits
        (registeredPath modulePath item.ident) = some item
    ∧ resolveBound
        [(registeredPath modulePath item.ident,
          registeredPath modulePath item.ident)]
        (generate_mock item opts st).2.knownTraits
        (TyParamBound.traitBound ⟨[], registeredPath modulePath item.ident⟩
          TraitBoundModifier.noModifier)
      = Except.ok
          ⟨SynPath.mk (registeredPath modulePath item.ident).globalFlag
            (registeredPath modulePath item.ident).segs.dropLast, item⟩ := by
  have hkt : (generate_mock item opts st).2.knownTraits
      = insertPath st.knownTraits (registeredPath modulePath item.ident)
          item := by
    cases hmn : opts.mock_name with
    | none =>
        cases hgt : generate_mock_for_traits (item.ident ++ "Mock")
            (rs ++ [⟨SynPath.mk false [], item⟩]) true st.nextMockTypeId with
        | mk r c2 =>
            cases r with
            | error e2 =>
                simp only [generate_mock, hnode, hres, hmn, hmp, hgt]
                rfl
            | ok out2 =>
                simp only [generate_mock, hnode, hres, hmn, hmp, hgt]
                rfl
    | some n =>
        cases hgt : generate_mock_for_traits n
            (rs ++ [⟨SynPath.mk false [], item⟩]) true st.nextMockTypeId with
        | mk r c2 =>
            cases r with
            | error e2 =>
                simp only [generate_mock, hnode, hres, hmn, hmp, hgt]
                rfl
            | ok out2 =>
                simp only [generate_mock, hnode, hres, hmn, hmp, hgt]
                rfl
  constructor
  · rw [hkt]
    exact lookupPath_insertPath st.knownTraits
      (registeredPath modulePath item.ident) item
  · rw [hkt]
    rcases Bool.eq_false_or_eq_true
        (registeredPath modulePath item.ident).globalFlag with hg | hg
    · simp [resolveBound, hg, lookupRef_self, lookupPath_insertPath]
    · simp [resolveBound, hg, lookupRef_self, lookupPath_insertPath]

/-- C10 witness: the parametrized (hence rejected) trait `Bad`, processed
with `module_path ::m2` from the empty state. -/
theorem c10_witness :
    badTrait.node = ItemKind.traitItem Safety.normal
        { lifetimes := [], ty_params := [{ ident := "T", bounds := [] }],
          where_predicates := [] } [] []
    ∧ mpOpts.module_path = some (SynPath.mk true [mkSeg "m2"])
    ∧ resolveReferenced mpOpts.refs emptyGenState.knownTraits []
        = Except.ok []
    ∧ (generate_mock badTrait mpOpts emptyGenState).1
        = Except.error "Parametrized traits are not supported yet"
    ∧ (lookupPath (generate_mock badTrait mpOpts emptyGenState).2.knownTraits
          (registeredPath (SynPath.mk true [mkSeg "m2"]) badTrait.ident)
        = some badTrait
      ∧ resolveBound
          [(registeredPath (SynPath.mk true [mkSeg "m2"]) badTrait.ident,
            registeredPath (SynPath.mk true [mkSeg "m2"]) badTrait.ident)]
          (generate_mock badTrait mpOpts emptyGenState).2.knownTraits
          (TyParamBound.traitBound
            ⟨[], registeredPath (SynPath.mk true [mkSeg "m2"])
              badTrait.ident⟩
            TraitBoundModifier.noModifier)
        = Except.ok
            ⟨SynPath.mk
              (registeredPath (SynPath.mk true [mkSeg "m2"])
                badTrait.ident).globalFlag
              (registeredPath (SynPath.mk true [mkSeg "m2"])
                badTrait.ident).segs.dropLast, badTrait⟩) :=
  ⟨rfl, rfl, rfl, by rfl,
    c10_registry_retains_entry_on_error badTrait mpOpts emptyGenState
      Safety.normal
      { lifetimes := [], ty_params := [{ ident := "T", bounds := [] }],
        where_predicates := [] } [] []
      (SynPath.mk true [mkSeg "m2"]) []
      "Parametrized traits are not supported yet" rfl rfl rfl (by rfl)⟩

end Mockers
